import Mathlib

/-!
Verification development for the EmailReader heuristic triage engine.

The Python sources (`heuristics.py`, `classify.py`, `rules.py`, plus the
spec-modelled decision policy) are shallowly embedded here:

* Python dict/JSON values become the inductive `JVal`; a dict is an
  association list `Dict`.  Python truthiness, `dict.get`, `len`, `int()`,
  iteration and `or` are embedded as explicit functions; operations that can
  raise at runtime return `Except String _`.
* `str` values are Lean `String`s; regular-expression searches from the source
  are embedded as executable character-list matchers with the same semantics
  on the pattern shapes actually used by the source.
* JSON (de)serialisation by the Python standard library and the file system
  are modelled abstractly: the profile file is a state that is missing,
  unreadable, unparsable, or holds a JSON value.
* Machine floats are modelled as exact rationals (`Rat`); `round` is Python's
  round-half-to-even.
-/

namespace EmailReader

/-- JSON-like runtime values (the `Any` of the Python sources). `null` also
stands for Python `None`. -/
inductive JVal where
  | null
  | bool (b : Bool)
  | int (n : Int)
  | float (q : Rat)
  | str (s : String)
  | arr (l : List JVal)
  | obj (l : List (String × JVal))

/-- A Python `dict[str, Any]`. -/
abbrev Dict := List (String × JVal)

/-- Python truthiness (`bool(v)`). -/
def jTruthy : JVal → Bool
  | .null => false
  | .bool b => b
  | .int n => n != 0
  | .float q => q != 0
  | .str s => s != ""
  | .arr l => !l.isEmpty
  | .obj l => !l.isEmpty

/-- First binding of a key in an association list (Python dict lookup). -/
def jGet? (d : Dict) (k : String) : Option JVal :=
  (d.find? (fun p => p.1 == k)).map (fun p => p.2)

/-- Python `d.get(k, default)`. -/
def dGet (d : Dict) (k : String) (dflt : JVal) : JVal :=
  (jGet? d k).getD dflt

/-- Python `d.get(k)` (missing keys give `None`). -/
def dGetN (d : Dict) (k : String) : JVal :=
  dGet d k .null

/-- Python `k in d` for dicts. -/
def hasKey (d : Dict) (k : String) : Bool :=
  (jGet? d k).isSome

/-- Python `a or b` (returns the first truthy operand, else the second). -/
def pyOr (a b : JVal) : JVal :=
  if jTruthy a then a else b

/-- Python dict item assignment `d[k] = v`: updates the first binding in
place, or appends a new binding (insertion order). -/
def dSet (d : Dict) (k : String) (v : JVal) : Dict :=
  match d with
  | [] => [(k, v)]
  | (k', v') :: rest =>
    if k' == k then (k', v) :: rest else (k', v') :: dSet rest k v

/-- Python `len(v)`; raises `TypeError` on numbers, booleans and `None`. -/
def pyLenE : JVal → Except String Int
  | .arr l => .ok l.length
  | .str s => .ok s.length
  | .obj l => .ok l.length
  | _ => .error "TypeError: object has no len"

/-- Truncation of a rational toward zero (Python `int(float)`). -/
def ratTrunc (q : Rat) : Int :=
  if 0 ≤ q then Rat.floor q else Rat.ceil q

/-- Python `int(v)`; raises on `None`, lists and dicts. -/
def pyIntE : JVal → Except String Int
  | .int n => .ok n
  | .bool b => .ok (if b then 1 else 0)
  | .float q => .ok (ratTrunc q)
  | .str s =>
    match s.toInt? with
    | some n => .ok n
    | none => .error "ValueError: invalid literal for int"
  | _ => .error "TypeError: int argument"

/-- Numeric view of a value for comparisons (`confidence >= min_confidence`);
Python `bool` is an `int`; other types raise `TypeError`. -/
def pyNumE : JVal → Except String Rat
  | .int n => .ok (n : Rat)
  | .float q => .ok q
  | .bool b => .ok (if b then 1 else 0)
  | _ => .error "TypeError: unsupported comparison"

/-- Python iteration over a value: lists yield their items, strings their
characters (as 1-character strings), dicts their keys; numbers, booleans and
`None` raise `TypeError`. -/
def jIterE : JVal → Except String (List JVal)
  | .arr l => .ok l
  | .str s => .ok (s.toList.map (fun c => JVal.str (String.singleton c)))
  | .obj l => .ok (l.map (fun p => JVal.str p.1))
  | _ => .error "TypeError: object is not iterable"

/-- Python equality test of a value against a string literal. -/
def jEqStr (v : JVal) (s : String) : Bool :=
  match v with
  | .str t => t == s
  | _ => false

/-- View a value as a dict, or raise (`.get` on a non-dict). -/
def asObjE (err : String) : JVal → Except String Dict
  | .obj l => .ok l
  | _ => .error err

/-- The apostrophe character, kept out of string literals. -/
def apoChar : Char := Char.ofNat 39

/-- ASCII whitespace recognised by Python's `str.strip` and regex `\s`. -/
def isSpaceChar (c : Char) : Bool :=
  c == ' ' || c == '\t' || c == '\n' || c == '\r' || c == '\x0b' || c == '\x0c'

/-- Regex word character `\w` (ASCII fragment). -/
def isWordChar (c : Char) : Bool :=
  c.isAlpha || c.isDigit || c == '_'

/-- Python `str.strip()` on a character list. -/
def pyStripL (l : List Char) : List Char :=
  ((l.dropWhile isSpaceChar).reverse.dropWhile isSpaceChar).reverse

/-- Python `str.strip()`. -/
def pyStrip (s : String) : String :=
  ⟨pyStripL s.toList⟩

/-- Python `str.lower()` (ASCII fragment). -/
def pyLower (s : String) : String :=
  ⟨s.toList.map Char.toLower⟩

/-- `(v or "").lower()`: lowercase a defaulted string; raises on a truthy
non-string. -/
def lowerStrE (v : JVal) : Except String String :=
  match v with
  | .str s => .ok (pyLower s)
  | _ => .error "AttributeError: lower"

/-! ### Regex pattern embeddings (`heuristics.py` pattern tables)

Every compiled pattern of the source is either an alternation of literal
words joined by `\s+` with `\b` at both ends, a plain substring alternation,
or one of three special shapes (`due\s+(by|on)?`, the ISO date, and the
thread-addition pattern), each embedded by an executable matcher below.  All
literals start and end with word characters, so `\b` reduces to the adjacent
character not being a word character. -/

/-- Shorthand: the character list of a pattern literal. -/
def w (s : String) : List Char := s.toList

/-- Case-insensitive literal match at the head of the text; returns the rest. -/
def takeLit : List Char → List Char → Option (List Char)
  | [], l => some l
  | _ :: _, [] => none
  | p :: ps, c :: cs => if c.toLower == p then takeLit ps cs else none

/-- Case-sensitive literal match at the head of the text (patterns compiled
without `re.IGNORECASE`). -/
def takeLitCS : List Char → List Char → Option (List Char)
  | [], l => some l
  | _ :: _, [] => none
  | p :: ps, c :: cs => if c == p then takeLitCS ps cs else none

/-- Word boundary `\b` before a match whose first char is a word char:
the previous character (if any) must not be a word character. -/
def bndBefore : Option Char → Bool
  | none => true
  | some c => !isWordChar c

/-- Word boundary `\b` after a match whose last char is a word char:
the next character (if any) must not be a word character. -/
def bndAfter : List Char → Bool
  | [] => true
  | c :: _ => !isWordChar c

/-- Regex `\s+` followed by a literal starting with a non-space character:
one-or-more whitespace, maximal munch (equivalent to backtracking here). -/
def wsPlus : List Char → Option (List Char)
  | [] => none
  | c :: cs => if isSpaceChar c then some (cs.dropWhile isSpaceChar) else none

/-- Try a match at every position of the text (`re.search`), tracking the
previous character for word boundaries. -/
def scanGo (f : Option Char → List Char → Bool) : Option Char → List Char → Bool
  | prev, [] => f prev []
  | prev, c :: cs => f prev (c :: cs) || scanGo f (some c) cs

/-- Search the whole text with a position matcher. -/
def scanL (f : Option Char → List Char → Bool) (l : List Char) : Bool :=
  scanGo f none l

/-- Match a `\b tok (\s+ tok)* \b` pattern at the head of the text, where each
token is an alternation of literals. -/
def matchToks : List (List (List Char)) → List Char → Bool
  | [], l => bndAfter l
  | alts :: toks, l =>
    alts.any (fun a =>
      match takeLit a l with
      | none => false
      | some rest =>
        match toks with
        | [] => bndAfter rest
        | _ :: _ =>
          match wsPlus rest with
          | none => false
          | some rest2 => matchToks toks rest2)

/-- `re.search` for a `\b`-delimited token-sequence pattern. -/
def searchPat (toks : List (List (List Char))) (text : List Char) : Bool :=
  scanL (fun prev l => bndBefore prev && matchToks toks l) text

/-- Case-insensitive substring search (patterns without `\b`). -/
def containsCI (pat : String) (l : List Char) : Bool :=
  scanL (fun _ rest => (takeLit pat.toList rest).isSome) l

/-- Case-sensitive substring search. -/
def containsCS (pat : String) (l : List Char) : Bool :=
  scanL (fun _ rest => (takeLitCS pat.toList rest).isSome) l

/-- `ACTION_STRONG_PATTERNS` of `heuristics.py`. -/
def ACTION_STRONG_PATTERNS : List (List Char → Bool) :=
  [ searchPat [[w "please"],
      [w "review", w "approve", w "confirm", w "respond", w "send", w "share"]],
    searchPat [[w "can", w "could", w "would"], [w "you"]],
    searchPat [[w "need"], [w "you"], [w "to"]],
    searchPat [[w "your"], [w "approval", w "feedback", w "input", w "decision"]],
    searchPat [[w "last request"]] ]

/-- `ACTION_WEAK_PATTERNS`. -/
def ACTION_WEAK_PATTERNS : List (List Char → Bool) :=
  [ searchPat [[w "review"]], searchPat [[w "approve"]],
    searchPat [[w "confirm"]], searchPat [[w "schedule"]] ]

/-- `IMPERATIVE_PATTERNS` (`let'?s` becomes the two literals `lets`/`let's`). -/
def IMPERATIVE_PATTERNS : List (List Char → Bool) :=
  [ searchPat [[w "please"]], searchPat [[w "kindly"]],
    searchPat [[w "action required"]],
    searchPat [[w "lets", w "let" ++ [apoChar] ++ w "s"]],
    searchPat [[w "do it"]] ]

/-- Regex `\bdue\s+(by|on)?\b`: after `due` and whitespace, either `by`/`on`
with a trailing boundary, or (empty group) a word character right after the
whitespace. -/
def dueSearch (text : List Char) : Bool :=
  scanL (fun prev l => bndBefore prev &&
    (match takeLit (w "due") l with
     | none => false
     | some rest =>
       match wsPlus rest with
       | none => false
       | some r2 =>
         (match takeLit (w "by") r2 with | some r3 => bndAfter r3 | none => false) ||
         (match takeLit (w "on") r2 with | some r3 => bndAfter r3 | none => false) ||
         (match r2 with | c :: _ => isWordChar c | [] => false))) text

/-- Exactly `n` ASCII digits at the head of the text. -/
def takeDigits : Nat → List Char → Option (List Char)
  | 0, l => some l
  | _ + 1, [] => none
  | n + 1, c :: cs => if c.isDigit then takeDigits n cs else none

/-- Regex `\b\d{4}-\d{2}-\d{2}\b`. -/
def isoDateSearch (text : List Char) : Bool :=
  scanL (fun prev l => bndBefore prev &&
    (match takeDigits 4 l with
     | none => false
     | some r1 =>
       match r1 with
       | '-' :: r2 =>
         (match takeDigits 2 r2 with
          | none => false
          | some r3 =>
            match r3 with
            | '-' :: r4 =>
              (match takeDigits 2 r4 with
               | none => false
               | some r5 => bndAfter r5)
            | _ => false)
       | _ => false)) text

/-- `DEADLINE_PATTERNS`. -/
def DEADLINE_PATTERNS : List (List Char → Bool) :=
  [ searchPat [[w "by"],
      [w "eod", w "cob", w "end of day", w "tomorrow", w "today", w "monday",
       w "tuesday", w "wednesday", w "thursday", w "friday"]],
    searchPat [[w "deadline"]],
    dueSearch,
    searchPat [[w "expires", w "expire"]],
    isoDateSearch ]

/-- `URGENCY_PATTERNS`. -/
def URGENCY_PATTERNS : List (List Char → Bool) :=
  [ searchPat [[w "urgent"]], searchPat [[w "asap"]],
    searchPat [[w "high priority"]],
    searchPat [[w "time-sensitive", w "time sensitive"]] ]

/-- `APPROVAL_PATTERNS`. -/
def APPROVAL_PATTERNS : List (List Char → Bool) :=
  [ searchPat [[w "ready for approval", w "sign off", w "signature request",
      w "please sign"]] ]

/-- `CONTRACT_FINANCE_PATTERNS`. -/
def CONTRACT_FINANCE_PATTERNS : List (List Char → Bool) :=
  [ searchPat [[w "invoice", w "agreement", w "contract", w "quote",
      w "purchase order", w "po"]] ]

/-- `FYI_PATTERNS`. -/
def FYI_PATTERNS : List (List Char → Bool) :=
  [ searchPat [[w "fyi"]], searchPat [[w "for your information"]],
    searchPat [[w "for awareness"]] ]

/-- `NEWSLETTER_PATTERNS`. -/
def NEWSLETTER_PATTERNS : List (List Char → Bool) :=
  [ searchPat [[w "newsletter", w "digest", w "weekly update",
      w "view in browser"]] ]

/-- `NO_ACTION_PATTERNS`. -/
def NO_ACTION_PATTERNS : List (List Char → Bool) :=
  [ searchPat [[w "no action needed"]], searchPat [[w "no response required"]],
    searchPat [[w "fyi only"]] ]

/-- `AUTOMATION_PATTERNS` (plain substring alternations, no `\b`). -/
def AUTOMATION_PATTERNS : List (List Char → Bool) :=
  [ fun l => containsCI "noreply" l || containsCI "no-reply" l ||
      containsCI "do-not-reply" l || containsCI "donotreply" l,
    fun l => containsCI "notification" l || containsCI "automated" l ||
      containsCI "auto-generated" l || containsCI "alert" l ]

/-- The inline noreply-sender search of `extract_features` (compiled without
`re.IGNORECASE`). -/
def noreplySenderHit (sender : List Char) : Bool :=
  containsCS "noreply" sender || containsCS "no-reply" sender ||
    containsCS "donotreply" sender || containsCS "do-not-reply" sender

/-- Tail `\s*[,;:]` of the salutation pattern. -/
def punctAfterWs (rest : List Char) : Bool :=
  match rest.dropWhile isSpaceChar with
  | c :: _ => c == ',' || c == ';' || c == ':'
  | [] => false

/-- One alternative of the salutation pattern at the head of the text. -/
def nameMatch (l1 name : List Char) : Bool :=
  match takeLit name l1 with
  | none => false
  | some rest => punctAfterWs rest

/-- `DIRECT_SALUTATION_PATTERN`, regex
`^\s*(dan|dan/ben|dan and ben)\s*[,;:]` with `re.IGNORECASE`, searched with
`.search` (anchored by `^`, so only at the start). -/
def direct_salutation_search (l : List Char) : Bool :=
  [w "dan", w "dan/ben", w "dan and ben"].any
    (nameMatch (l.dropWhile isSpaceChar))

/-- Middle segment `\s+.+\s+` of the thread-addition pattern: some split into
a non-empty whitespace prefix, a non-empty newline-free middle (`.` does not
match `\n`), and a non-empty whitespace suffix. -/
def segMid (A : List Char) : Bool :=
  (List.range (A.length + 1)).any (fun i =>
    0 < i && (A.take i).all isSpaceChar &&
    (List.range (A.length + 1)).any (fun j =>
      0 < j && i + j < A.length &&
      ((A.drop (A.length - j)).all isSpaceChar) &&
      (((A.take (A.length - j)).drop i).all (fun c => c != '\n'))))

/-- Tail `to\s+the\s+(conversation|thread)\b` of the thread-addition
pattern. -/
def threadTail (B : List Char) : Bool :=
  match takeLit (w "to") B with
  | none => false
  | some r1 =>
    match wsPlus r1 with
    | none => false
    | some r2 =>
      match takeLit (w "the") r2 with
      | none => false
      | some r3 =>
        match wsPlus r3 with
        | none => false
        | some r4 =>
          (match takeLit (w "conversation") r4 with
           | some r5 => bndAfter r5 | none => false) ||
          (match takeLit (w "thread") r4 with
           | some r5 => bndAfter r5 | none => false)

/-- `THREAD_ADDITION_PATTERN`, regex
`\badding\s+.+\s+to\s+the\s+(conversation|thread)\b`. -/
def threadAdditionSearch (text : List Char) : Bool :=
  scanL (fun prev l => bndBefore prev &&
    (match takeLit (w "adding") l with
     | none => false
     | some l2 =>
       (List.range (l2.length + 1)).any (fun k =>
         segMid (l2.take k) && threadTail (l2.drop k)))) text

/-- Number of patterns of a family that match the text
(`sum(1 for p in PATTERNS if p.search(text))`). -/
def countHits (pats : List (List Char → Bool)) (l : List Char) : Int :=
  ((pats.filter (fun p => p l)).length : Int)

/-- Whether any pattern of a family matches (`any(...)`). -/
def anyHit (pats : List (List Char → Bool)) (l : List Char) : Bool :=
  pats.any (fun p => p l)

/-! ### Python `str()`/`repr()` of values (for the f-string in `_safe_text`) -/

mutual

/-- Python `repr(v)` for JSON-like values (floats rendered as exact
rationals, an approximation visible only for malformed inputs). -/
def pyRepr : JVal → String
  | .null => "None"
  | .bool b => if b then "True" else "False"
  | .int n => toString n
  | .float q => toString q
  | .str s => String.singleton apoChar ++ s ++ String.singleton apoChar
  | .arr l => "[" ++ reprItems l ++ "]"
  | .obj l => "\x7b" ++ reprPairs l ++ "\x7d"

/-- Comma-joined reprs of list items. -/
def reprItems : List JVal → String
  | [] => ""
  | [x] => pyRepr x
  | x :: y :: xs => pyRepr x ++ ", " ++ reprItems (y :: xs)

/-- Comma-joined reprs of dict items. -/
def reprPairs : List (String × JVal) → String
  | [] => ""
  | [(k, v)] => pyRepr (.str k) ++ ": " ++ pyRepr v
  | (k, v) :: y :: xs => pyRepr (.str k) ++ ": " ++ pyRepr v ++ ", " ++ reprPairs (y :: xs)

end

/-- Python `str(v)` (as used by f-string interpolation). -/
def pyStr : JVal → String
  | .str s => s
  | v => pyRepr v

/-! ### `heuristics.py`: helpers and feature extraction -/

/-- `_sender_email`: `((email.get("from") or {}).get("email") or "")
.strip().lower()`; raises when `from` is truthy but not a dict, or the email
value is truthy but not a string. -/
def sender_email (email : Dict) : Except String String :=
  match pyOr (dGetN email "from") (.obj []) with
  | .obj fd =>
    match pyOr (dGetN fd "email") (.str "") with
    | .str s => .ok (pyLower (pyStrip s))
    | _ => .error "AttributeError: strip"
  | _ => .error "AttributeError: get"

/-- Suffix after the first `@`. -/
def afterAt (s : String) : String :=
  ⟨(s.toList.dropWhile (fun c => c != '@')).drop 1⟩

/-- `_sender_domain`. -/
def sender_domain (s : String) : String :=
  if s.toList.contains '@' then afterAt s else ""

/-- `_user_domain`. -/
def user_domain (s : String) : String :=
  if s.toList.contains '@' then afterAt s else ""

/-- `[a.lower() for a in v]`: iterate a value and lowercase each item;
raises when the value is not iterable or an item is not a string. -/
def pyLowerListE (v : JVal) : Except String (List String) := do
  let items ← jIterE v
  items.mapM (fun x =>
    match x with
    | .str s => Except.ok (pyLower s)
    | _ => Except.error "AttributeError: lower")

/-- `_recipient_role` of `heuristics.py`: both the `to` and `cc`
comprehensions run before the membership tests. -/
def recipient_role (email : Dict) (user_email : String) : Except String String :=
  if user_email == "" then .ok "unknown"
  else do
    let toL ← pyLowerListE (dGet email "to" (.arr []))
    let ccL ← pyLowerListE (dGet email "cc" (.arr []))
    if toL.contains user_email then Except.ok "to"
    else if ccL.contains user_email then Except.ok "cc"
    else Except.ok "unknown"

/-- `_safe_text`: `f"{subject}\n{body}\n{preview}"` (never raises). -/
def safe_text (email : Dict) : String :=
  pyStr (pyOr (dGetN email "subject") (.str "")) ++ "\n" ++
    pyStr (pyOr (dGetN email "body_text") (.str "")) ++ "\n" ++
    pyStr (pyOr (dGetN email "body_preview") (.str ""))

/-! ### ISO-8601 timestamp parsing (`datetime.fromisoformat`)

Instants are modelled as seconds; a parsed timestamp is `(naiveSeconds,
offsetSeconds?)` where `none` marks a naive datetime.  Fractional seconds are
parsed and discarded (second granularity). -/

/-- Exactly `n` digits, returning their value and the rest. -/
def readDigits : Nat → List Char → Nat → Option (Nat × List Char)
  | 0, l, acc => some (acc, l)
  | _ + 1, [], _ => none
  | n + 1, c :: cs, acc =>
    if c.isDigit then readDigits n cs (acc * 10 + (c.toNat - 48)) else none

/-- Gregorian leap year. -/
def isLeap (y : Nat) : Bool :=
  (y % 4 == 0 && y % 100 != 0) || y % 400 == 0

/-- Days in a month. -/
def daysInMonth (y m : Nat) : Nat :=
  if m == 2 then (if isLeap y then 29 else 28)
  else if m == 4 || m == 6 || m == 9 || m == 11 then 30
  else 31

/-- Days in the years `1 .. y-1` of the proleptic Gregorian calendar. -/
def daysBeforeYear (y : Nat) : Nat :=
  (y - 1) * 365 + (y - 1) / 4 - (y - 1) / 100 + (y - 1) / 400

/-- Days in the months `1 .. m-1` of year `y`. -/
def daysBeforeMonth (y m : Nat) : Nat :=
  ((List.range m).filter (fun k => 0 < k)).foldl
    (fun acc k => acc + daysInMonth y k) 0

/-- Proleptic-Gregorian ordinal of a date (0001-01-01 is day 1). -/
def dateOrdinal (y m d : Nat) : Nat :=
  daysBeforeYear y + daysBeforeMonth y m + d

/-- Ordinal of 1970-01-01. -/
def epochOrdinal : Nat := 719163

/-- Seconds since the epoch of a naive date-time. -/
def civilSeconds (y mo d h mi s : Nat) : Int :=
  ((dateOrdinal y mo d : Int) - (epochOrdinal : Int)) * 86400 +
    (h : Int) * 3600 + (mi : Int) * 60 + (s : Int)

/-- Fractional seconds `.d+` (value discarded); empty input passes through. -/
def skipFraction : List Char → Option (List Char)
  | [] => some []
  | '.' :: rest =>
    let digits := rest.takeWhile Char.isDigit
    if 0 < digits.length && digits.length ≤ 6 then
      some (rest.dropWhile Char.isDigit)
    else none
  | l => some l

/-- Offset `±HH:MM` (or nothing, for a naive datetime). -/
def readOffset : List Char → Option (Option Int)
  | [] => some none
  | c :: rest =>
    if c == '+' || c == '-' then
      match readDigits 2 rest 0 with
      | none => none
      | some (oh, r1) =>
        match r1 with
        | ':' :: r2 =>
          (match readDigits 2 r2 0 with
           | some (om, []) =>
             if oh ≤ 23 && om ≤ 59 then
               some (some ((if c == '-' then -1 else 1) *
                 ((oh : Int) * 3600 + (om : Int) * 60)))
             else none
           | _ => none)
        | _ => none
    else none

/-- Time-of-day and optional offset: `HH:MM[:SS[.ffffff]][±HH:MM]`. -/
def readClock (l : List Char) : Option (Int × Option Int) := do
  let (h, r1) ← readDigits 2 l 0
  match r1 with
  | ':' :: r2 => do
    let (mi, r3) ← readDigits 2 r2 0
    let (s, r4) ←
      match r3 with
      | ':' :: r5 =>
        match readDigits 2 r5 0 with
        | some (s, r6) => some (s, r6)
        | none => none
      | _ => some (0, r3)
    let r7 ← skipFraction r4
    let off ← readOffset r7
    if h ≤ 23 && mi ≤ 59 && s ≤ 59 then
      some ((h : Int) * 3600 + (mi : Int) * 60 + (s : Int), off)
    else none
  | _ => none

/-- `datetime.fromisoformat` (supported subset): returns naive seconds and an
optional UTC offset, or `none` (a `ValueError`). -/
def parseIsoTimestamp (str : String) : Option (Int × Option Int) := do
  let l := str.toList
  let (y, r1) ← readDigits 4 l 0
  match r1 with
  | '-' :: r2 => do
    let (mo, r3) ← readDigits 2 r2 0
    match r3 with
    | '-' :: r4 => do
      let (d, r5) ← readDigits 2 r4 0
      if 1 ≤ y && 1 ≤ mo && mo ≤ 12 && 1 ≤ d && d ≤ daysInMonth y mo then
        match r5 with
        | [] => some (civilSeconds y mo d 0 0 0, none)
        | sep :: r6 =>
          if sep == 'T' || sep == ' ' then
            match readClock r6 with
            | some (secs, off) => some (civilSeconds y mo d 0 0 0 + secs, off)
            | none => none
          else none
      else none
    | _ => none
  | _ => none

/-- Python `str.replace` specialised to a single-character pattern (the
source replaces `"Z"`). -/
def replace1 (target : Char) (rep : List Char) : List Char → List Char
  | [] => []
  | c :: cs => if c == target then rep ++ replace1 target rep cs
    else c :: replace1 target rep cs

/-- `_is_recent`: falsy timestamps and `ValueError`s give `False`; a truthy
non-string raises (`.replace`), and subtracting a parsed *naive* datetime
from the aware `datetime.now(timezone.utc)` raises `TypeError`. -/
def is_recent (received_at : JVal) (now : Int) : Except String Bool :=
  if !jTruthy received_at then .ok false
  else
    match received_at with
    | .str s =>
      match parseIsoTimestamp ⟨replace1 'Z' (w "+00:00") s.toList⟩ with
      | none => .ok false
      | some (t, some off) => .ok (decide (now - (t - off) ≤ 48 * 3600))
      | some (_, none) => .error "TypeError: naive minus aware datetime"
    | _ => .error "AttributeError: replace"

/-- The body text used for the salutation check:
`(email.get("body_text") or email.get("body_preview") or "").strip()`. -/
def bodyTextOf (email : Dict) : Except String String :=
  match pyOr (pyOr (dGetN email "body_text") (dGetN email "body_preview"))
      (.str "") with
  | .str s => Except.ok (pyStrip s)
  | _ => Except.error "AttributeError: strip"

/-- The feature set produced by `extract_features` (spec `FeatureSet`). -/
structure FeatureSet where
  recipient_role : String
  to_count : Int
  is_unread : Bool
  is_high_importance : Bool
  has_attachments : Bool
  is_external_sender : Bool
  is_internal_sender : Bool
  is_vip_sender : Bool
  is_noreply_sender : Bool
  automation_pattern_hit : Bool
  action_phrase_strong_hits : Int
  action_phrase_weak_hits : Int
  direct_salutation : Bool
  direct_salutation_to_me : Bool
  small_group_question : Bool
  thread_addition : Bool
  thread_addition_cc_me : Bool
  multi_to_no_salutation : Bool
  last_request_phrase : Bool
  question_present : Bool
  imperative_present : Bool
  deadline_present : Bool
  urgency_present : Bool
  approval_workflow_present : Bool
  contract_finance_present : Bool
  fyi_present : Bool
  newsletter_present : Bool
  no_action_present : Bool
  is_recent : Bool
  sender_email : String
deriving DecidableEq, Inhabited

/-- The values of `extract_features` whose computation can raise, in source
order. -/
structure ExtractCtx where
  sender : String
  role : String
  subject : String
  total_recipients : Int
  to_count : Int
  body_text : String
  recent : Bool

/-- Fallible part of `extract_features`, in source evaluation order. -/
def extractCore (email : Dict) (user_email : String) (now : Int) :
    Except String ExtractCtx := do
  let sender ← sender_email email
  let role ← recipient_role email user_email
  let subject ← lowerStrE (pyOr (dGetN email "subject") (.str ""))
  let toLen ← pyLenE (pyOr (dGetN email "to") (.arr []))
  let ccLen ← pyLenE (pyOr (dGetN email "cc") (.arr []))
  let toCount ← pyLenE (pyOr (dGetN email "to") (.arr []))
  let bodyText ← bodyTextOf email
  let recent ← is_recent (dGetN email "received_at") now
  Except.ok ⟨sender, role, subject, toLen + ccLen, toCount, bodyText, recent⟩

/-- Pure part of `extract_features`: the feature-dict literal plus the three
compound reassignments. -/
def mkFeatureSet (email : Dict) (user_email : String) (vip : List String)
    (ctx : ExtractCtx) : FeatureSet :=
  let senderDomain := sender_domain ctx.sender
  let internalDomain := user_domain user_email
  let textL := (safe_text email).toList
  let subjectL := ctx.subject.toList
  let senderL := ctx.sender.toList
  let ds := direct_salutation_search (ctx.body_text.toList.take 80)
  let thr := threadAdditionSearch textL
  { recipient_role := ctx.role
    to_count := ctx.to_count
    is_unread := !(jTruthy (dGet email "is_read" (.bool false)))
    is_high_importance := jEqStr (dGetN email "importance") "high"
    has_attachments := jTruthy (dGet email "has_attachments" (.bool false))
    is_external_sender := senderDomain != "" && internalDomain != "" &&
      senderDomain != internalDomain
    is_internal_sender := senderDomain != "" && internalDomain != "" &&
      senderDomain == internalDomain
    is_vip_sender := vip.contains ctx.sender
    is_noreply_sender := noreplySenderHit senderL
    automation_pattern_hit :=
      AUTOMATION_PATTERNS.any (fun p => p senderL || p subjectL)
    action_phrase_strong_hits := countHits ACTION_STRONG_PATTERNS textL
    action_phrase_weak_hits := countHits ACTION_WEAK_PATTERNS textL
    direct_salutation := ds
    direct_salutation_to_me := ds && (ctx.role == "to")
    small_group_question := textL.contains '?' &&
      (0 < ctx.total_recipients && ctx.total_recipients ≤ 3)
    thread_addition := thr
    thread_addition_cc_me := thr && (ctx.role == "cc")
    multi_to_no_salutation := (ctx.role == "to") && (3 ≤ ctx.to_count) && !ds
    last_request_phrase := searchPat [[w "last request"]] textL
    question_present := textL.contains '?'
    imperative_present := anyHit IMPERATIVE_PATTERNS textL
    deadline_present := anyHit DEADLINE_PATTERNS textL
    urgency_present := anyHit URGENCY_PATTERNS textL
    approval_workflow_present := anyHit APPROVAL_PATTERNS textL
    contract_finance_present := anyHit CONTRACT_FINANCE_PATTERNS textL
    fyi_present := anyHit FYI_PATTERNS textL
    newsletter_present := anyHit NEWSLETTER_PATTERNS textL
    no_action_present := anyHit NO_ACTION_PATTERNS textL
    is_recent := ctx.recent
    sender_email := ctx.sender }

/-- `extract_features(email, user_email, vip_senders)`; the environment
defaults (`M365_USER_EMAIL`, `M365_VIP_SENDERS`) are explicit parameters, and
`now` is the evaluation instant of `datetime.now`. -/
def extract_features (email : Dict) (user_email_arg : String)
    (vip : List String) (now : Int) : Except String FeatureSet :=
  (extractCore email (pyLower user_email_arg) now).map
    (mkFeatureSet email (pyLower user_email_arg) vip)

/-! ### `heuristics.py`: scoring policy and sender prior -/

/-- A weight table (`dict[str, int]`). -/
abbrev Weights := List (String × Int)

/-- `weights.get(key, default)`. -/
def wGet (wt : Weights) (k : String) (d : Int) : Int :=
  ((wt.find? (fun p => p.1 == k)).map (fun p => p.2)).getD d

/-- The `HEURISTIC_WEIGHTS` table of `settings.py`. -/
def HEURISTIC_WEIGHTS : Weights :=
  [("to_me", 24), ("cc_me", 6), ("unknown_recipient_role", 0), ("unread", 8),
   ("importance_high", 14), ("has_attachments", 5), ("external_sender", 2),
   ("internal_sender", 7), ("vip_sender", 15), ("noreply_sender", -30),
   ("automation_pattern", -20), ("action_phrase_strong", 20),
   ("action_phrase_weak", 8), ("direct_salutation", 14),
   ("direct_salutation_to_me", 10), ("small_group_question", 8),
   ("thread_addition", 24), ("thread_addition_cc_me", 16),
   ("multi_to_no_salutation", -18), ("last_request_phrase", 12),
   ("question_present", 8), ("imperative_present", 10),
   ("deadline_present", 18), ("urgency_present", 12),
   ("approval_workflow", 16), ("contract_finance_signal", 14),
   ("fyi_phrase", -14), ("newsletter_phrase", -22), ("no_action_phrase", -24),
   ("sender_history_max_boost", 6), ("sender_history_max_penalty", -8)]

/-- Python 3 `round()` to the nearest integer, ties to even. -/
def pyRound (q : Rat) : Int :=
  let f := Rat.floor q
  let r := q - (f : Rat)
  if r < 1/2 then f
  else if 1/2 < r then f + 1
  else if f % 2 == 0 then f else f + 1

/-- Truthiness of the optional `profiles` argument (`not profiles`). -/
def profilesTruthy : Option JVal → Bool
  | none => false
  | some v => jTruthy v

/-- The optional `profiles` argument as a value (`None` when absent). -/
def profilesVal : Option JVal → JVal
  | none => .null
  | some v => v

/-- `_bounded_sender_prior(sender_email, profiles, weights)`; the
float arithmetic of the source is modelled exactly over the rationals. -/
def bounded_sender_prior (sender : String) (profiles : Option JVal)
    (wt : Weights) : Except String (Int × String) :=
  if sender == "" || !profilesTruthy profiles then .ok (0, "sender_history")
  else do
    let P ← asObjE "AttributeError: profiles.get" (profilesVal profiles)
    let S ← asObjE "AttributeError: senders.get" (dGet P "senders" (.obj []))
    if !jTruthy (dGetN S sender) then Except.ok (0, "sender_history")
    else do
      let recD ← asObjE "AttributeError: rec.get" (dGetN S sender)
      let seen ← pyIntE (dGet recD "seen" (.int 0))
      if seen < 3 then Except.ok (0, "sender_history")
      else do
        let fc ← pyIntE (dGet recD "flag_count" (.int 0))
        let sc ← pyIntE (dGet recD "surface_count" (.int 0))
        let responded := fc + sc
        let rate : Rat := if seen != 0 then (responded : Rat) / (seen : Rat) else 0
        let raw := pyRound ((rate - 1/2) * 24)
        let maxBoost := wGet wt "sender_history_max_boost" 12
        let maxPenalty := wGet wt "sender_history_max_penalty" (-12)
        Except.ok (max maxPenalty (min maxBoost raw), "sender_history")

/-- Result of `score_features`. -/
structure ScoreResult where
  score : Int
  breakdown : List (String × Int)
deriving DecidableEq, Inhabited

/-- The local closure `add(signal, points, when)` of `score_features`. -/
def addSig (st : ScoreResult) (signal : String) (points : Int) (when : Bool) :
    ScoreResult :=
  if !when || points == 0 then st
  else ⟨st.score + points, st.breakdown ++ [(signal, points)]⟩

/-- The fixed signals of `score_features`, in source evaluation order, as
`(signal, weight, guard)` triples (the `elif` of the weak action phrase is
encoded in its guard). -/
def sigGates (f : FeatureSet) (wt : Weights) : List (String × Int × Bool) :=
  [("to_me", wGet wt "to_me" 0, f.recipient_role == "to"),
   ("cc_me", wGet wt "cc_me" 0, f.recipient_role == "cc"),
   ("unknown_recipient_role", wGet wt "unknown_recipient_role" 0,
     f.recipient_role == "unknown"),
   ("unread", wGet wt "unread" 0, f.is_unread),
   ("importance_high", wGet wt "importance_high" 0, f.is_high_importance),
   ("has_attachments", wGet wt "has_attachments" 0, f.has_attachments),
   ("external_sender", wGet wt "external_sender" 0, f.is_external_sender),
   ("internal_sender", wGet wt "internal_sender" 0, f.is_internal_sender),
   ("vip_sender", wGet wt "vip_sender" 0, f.is_vip_sender),
   ("noreply_sender", wGet wt "noreply_sender" 0, f.is_noreply_sender),
   ("automation_pattern", wGet wt "automation_pattern" 0,
     f.automation_pattern_hit),
   ("action_phrase_strong", wGet wt "action_phrase_strong" 0,
     0 < f.action_phrase_strong_hits),
   ("action_phrase_weak", wGet wt "action_phrase_weak" 0,
     !(0 < f.action_phrase_strong_hits) && 0 < f.action_phrase_weak_hits),
   ("direct_salutation", wGet wt "direct_salutation" 0, f.direct_salutation),
   ("direct_salutation_to_me", wGet wt "direct_salutation_to_me" 0,
     f.direct_salutation_to_me),
   ("small_group_question", wGet wt "small_group_question" 0,
     f.small_group_question),
   ("thread_addition", wGet wt "thread_addition" 0, f.thread_addition),
   ("thread_addition_cc_me", wGet wt "thread_addition_cc_me" 0,
     f.thread_addition_cc_me),
   ("multi_to_no_salutation", wGet wt "multi_to_no_salutation" 0,
     f.multi_to_no_salutation),
   ("last_request_phrase", wGet wt "last_request_phrase" 0,
     f.last_request_phrase),
   ("question_present", wGet wt "question_present" 0, f.question_present),
   ("imperative_present", wGet wt "imperative_present" 0,
     f.imperative_present),
   ("deadline_present", wGet wt "deadline_present" 0, f.deadline_present),
   ("urgency_present", wGet wt "urgency_present" 0, f.urgency_present),
   ("approval_workflow", wGet wt "approval_workflow" 0,
     f.approval_workflow_present),
   ("contract_finance_signal", wGet wt "contract_finance_signal" 0,
     f.contract_finance_present),
   ("fyi_phrase", wGet wt "fyi_phrase" 0, f.fyi_present),
   ("newsletter_phrase", wGet wt "newsletter_phrase" 0, f.newsletter_present),
   ("no_action_phrase", wGet wt "no_action_phrase" 0, f.no_action_present)]

/-- `score_features(features, weights, sender_profiles)`: fold the fixed
signals through `add`, add the bounded sender prior, clamp once at the end. -/
def score_features (f : FeatureSet) (wt : Weights) (profiles : Option JVal) :
    Except String ScoreResult := do
  let st := (sigGates f wt).foldl
    (fun st t => addSig st t.1 t.2.1 t.2.2) ⟨0, []⟩
  let pr ← bounded_sender_prior f.sender_email profiles wt
  let st2 := addSig st pr.2 pr.1 true
  Except.ok ⟨max 0 (min 100 st2.score), st2.breakdown⟩

/-- `classify_score(score, flag_threshold, surface_threshold)`. -/
def classify_score (score flagT surfT : Int) : String :=
  if flagT ≤ score then "flag"
  else if surfT ≤ score then "surface"
  else "ignore"

/-- Stable insertion of a breakdown entry into a descending-by-points list. -/
def insDesc (x : String × Int) : List (String × Int) → List (String × Int)
  | [] => [x]
  | y :: ys => if y.2 ≤ x.2 then x :: y :: ys else y :: insDesc x ys

/-- Stable sort by points, descending (`list.sort(key=..., reverse=True)`). -/
def sortDesc (l : List (String × Int)) : List (String × Int) :=
  l.foldr insDesc []

/-- `summarize_reasons(breakdown, top_n=3)`. -/
def summarize_reasons (breakdown : List (String × Int)) : String :=
  let positive := breakdown.filter (fun b => 0 < b.2)
  if positive.isEmpty then "Low-signal message"
  else
    String.intercalate ", "
      (((sortDesc positive).take 3).map
        (fun p => p.1 ++ " (+" ++ toString p.2 ++ ")"))

/-- A triage result (spec `TriageResult`). -/
structure TriageResult where
  decision : String
  priority_score : Int
  reason : String
  score_breakdown : List (String × Int)
  features : FeatureSet
  source : String
deriving DecidableEq, Inhabited

/-- `evaluate_email(email, sender_profiles, user_email)` with the settings
defaults (weights, thresholds, vip senders) as explicit parameters. -/
def evaluate_email (email : Dict) (profiles : Option JVal)
    (user_email : String) (vip : List String) (wt : Weights)
    (flagT surfT : Int) (now : Int) : Except String TriageResult := do
  let features ← extract_features email user_email vip now
  let scoring ← score_features features wt profiles
  let score := scoring.score
  let decision := classify_score score flagT surfT
  let reason := summarize_reasons scoring.breakdown
  Except.ok ⟨decision, score, reason, scoring.breakdown, features, "heuristic"⟩

/-! ### `heuristics.py`: sender-profile persistence

The file system and the standard library's JSON codec are modelled
abstractly: the profile file is either missing, unreadable (`OSError`
from `read_text`), undecodable (the bytes are not valid UTF-8, so
`read_text(encoding="utf-8")` raises `UnicodeDecodeError`), unparsable
(`JSONDecodeError` from `json.loads`), or holds a JSON value, and
`json.loads(json.dumps(v))` is taken to be `v`. -/

/-- Abstract state of the profile file. -/
inductive FsState where
  | missing
  | readFailure
  | decodeFailure
  | parseFailure
  | payload (v : JVal)

/-- The fallback profile `{"senders": {}}`. -/
def emptyProfile : JVal := .obj [("senders", .obj [])]

/-- `load_sender_profiles(path)`: a missing file, an `OSError`, a
`JSONDecodeError`, a non-dict payload or a missing `"senders"` key falls
back to the empty profile; but the `except` clause lists only
`json.JSONDecodeError` and `OSError`, so the `UnicodeDecodeError` raised
by `path.read_text(encoding="utf-8")` on a file whose bytes are not valid
UTF-8 propagates. -/
def load_sender_profiles : FsState → Except String JVal
  | .decodeFailure => .error "UnicodeDecodeError: invalid start byte"
  | .payload (.obj l) =>
      if hasKey l "senders" then .ok (.obj l) else .ok emptyProfile
  | _ => .ok emptyProfile

/-- `save_sender_profiles(profiles, path)`: best-effort write; an `OSError`
is swallowed and leaves the file state unchanged; never raises. -/
def save_sender_profiles (profiles : JVal) (writeOk : Bool) (fs : FsState) :
    FsState :=
  if writeOk then .payload profiles else fs

/-- The fresh record inserted by `senders.setdefault` in
`update_sender_profiles`. -/
def newSenderRec : JVal :=
  .obj [("seen", .int 0), ("flag_count", .int 0), ("surface_count", .int 0),
    ("ignore_count", .int 0), ("last_seen", .null)]

/-- Python `d.setdefault(k, v)` restricted to its effect on the dict. -/
def setdefaultD (d : Dict) (k : String) (v : JVal) : Dict :=
  if hasKey d k then d else d ++ [(k, v)]

/-- `(msg.get("triage") or {}).get("decision", "ignore")`. -/
def msgDecision (md : Dict) : Except String JVal :=
  match pyOr (dGetN md "triage") (.obj []) with
  | .obj t => Except.ok (dGet t "decision" (.str "ignore"))
  | _ => Except.error "AttributeError: triage.get"

/-- The counter selected by the `if/elif/else` on the decision (a missing or
non-`flag`/`surface` decision counts as `ignore`). -/
def counterKey (decision : JVal) : String :=
  if jEqStr decision "flag" then "flag_count"
  else if jEqStr decision "surface" then "surface_count"
  else "ignore_count"

/-- One iteration of the message loop of `update_sender_profiles`, acting on
the `senders` dict; the in-place mutations of the aliased `rec` become
nested functional updates. -/
def updateOne (senders : Dict) (m : JVal) (now_iso : String) :
    Except String Dict := do
  match m with
  | .obj md => do
    let sender ← sender_email md
    if sender == "" then Except.ok senders
    else do
      let decision ← msgDecision md
      let recD ← asObjE "AttributeError: rec.get"
        (dGetN (setdefaultD senders sender newSenderRec) sender)
      let seen ← pyIntE (dGet recD "seen" (.int 0))
      let cnt ← pyIntE (dGet (dSet recD "seen" (.int (seen + 1)))
        (counterKey decision) (.int 0))
      Except.ok (dSet (setdefaultD senders sender newSenderRec) sender
        (.obj (dSet (dSet (dSet recD "seen" (.int (seen + 1)))
          (counterKey decision) (.int (cnt + 1))) "last_seen"
          (.str now_iso))))
  | _ => Except.error "AttributeError: msg.get"

/-- The message loop of `update_sender_profiles` when the existing
`"senders"` value is not a dict: the first message that reaches
`senders.setdefault` raises, the earlier raising points still fire first. -/
def updateOneBad (m : JVal) : Except String Unit := do
  match m with
  | .obj md => do
    let sender ← sender_email md
    if sender == "" then Except.ok ()
    else do
      let _ ← msgDecision md
      Except.error "AttributeError: senders.setdefault"
  | _ => Except.error "AttributeError: msg.get"

/-- `update_sender_profiles(profiles, evaluated_messages)`; `now_iso` is the
single `datetime.now(...).isoformat()` computed before the loop. -/
def update_sender_profiles (profiles : JVal) (msgs : List JVal)
    (now_iso : String) : Except String JVal :=
  match profiles with
  | .obj P =>
    match dGetN (setdefaultD P "senders" (.obj [])) "senders" with
    | .obj S0 =>
      (msgs.foldlM (fun S m => updateOne S m now_iso) S0).map
        (fun Sfin =>
          .obj (dSet (setdefaultD P "senders" (.obj [])) "senders"
            (.obj Sfin)))
    | _ =>
      (msgs.foldlM (fun _ m => updateOneBad m) ()).map
        (fun _ => .obj (setdefaultD P "senders" (.obj [])))
  | _ => Except.error "AttributeError: profiles.setdefault"

/-! ### `classify.py` / `rules.py`: AI fusion of the flag decision -/

/-- The flaggable classifications shared by `compute_final_flag` and
`is_flag_candidate`. -/
def isFlaggableClassification (v : JVal) : Bool :=
  jEqStr v "action_request" || jEqStr v "direct_question" ||
    jEqStr v "meeting_request"

/-- `compute_final_flag(ai_result, min_confidence)`.  Python's `and` chain
short-circuits, so the confidence comparison (the only raising point) only
runs when the classification is flaggable; a truthy non-`True`
`asks_me_specifically` is returned by the source as-is and modelled by its
truthiness. -/
def compute_final_flag (ai_result : Dict) (min_confidence : Rat) :
    Except String Bool :=
  let classification := dGet ai_result "classification" (.str "unknown")
  let confidence := dGet ai_result "confidence" (.float 0)
  let asks_me := dGet ai_result "asks_me_specifically" (.bool false)
  if !isFlaggableClassification classification then .ok false
  else do
    let c ← pyNumE confidence
    if c < min_confidence then Except.ok false
    else Except.ok (jTruthy asks_me)

/-- `rules.get_recipient_role(email)`: unlike the heuristics variant, the
`cc` comprehension only runs when the `to` test fails. -/
def get_recipient_role (email : Dict) (m365_user_email : String) :
    Except String String :=
  if m365_user_email == "" then .ok "unknown"
  else do
    let toL ← pyLowerListE (dGet email "to" (.arr []))
    if toL.contains m365_user_email then Except.ok "to"
    else do
      let ccL ← pyLowerListE (dGet email "cc" (.arr []))
      if ccL.contains m365_user_email then Except.ok "cc"
      else Except.ok "unknown"

/-- `AUTO_NOTIFICATION_PATTERNS` of `rules.py`. -/
def AUTO_NOTIFICATION_KEYWORDS : List String :=
  ["noreply", "no-reply", "notification", "alert", "automated"]

/-- `rules.is_auto_notification(email)`; `email.get("from", {})` defaults
only a *missing* key, so a null `from` raises. -/
def is_auto_notification (email : Dict) : Except String Bool := do
  let fd ← asObjE "AttributeError: from.get" (dGet email "from" (.obj []))
  let nameL ← lowerStrE (pyOr (dGetN fd "name") (.str ""))
  let semail ← lowerStrE (pyOr (dGetN fd "email") (.str ""))
  let subject ← lowerStrE (pyOr (dGetN email "subject") (.str ""))
  Except.ok (AUTO_NOTIFICATION_KEYWORDS.any (fun p =>
    containsCS p nameL.toList || containsCS p semail.toList ||
      containsCS p subject.toList))

/-- `ACTION_KEYWORDS` of `rules.py` (a set; only used through `any`). -/
def ACTION_KEYWORDS : List String :=
  ["please", "can you", "need you to", "review", "approve", "confirm",
   "schedule", "deadline", "due by"]

/-- Truthiness of the optional `ai_result` argument (`if ai_result:`). -/
def aiTruthyOpt : Option JVal → Bool
  | none => false
  | some v => jTruthy v

/-- `rules.is_flag_candidate(email, ai_result, min_conf)`; the module-level
`M365_USER_EMAIL` is an explicit (already lowercased) parameter. -/
def is_flag_candidate (email : Dict) (ai_result : Option JVal)
    (min_conf : Rat) (m365_user_email : String) : Except String Bool :=
  if aiTruthyOpt ai_result then
    match ai_result with
    | some (.obj l) =>
      let classification := dGetN l "classification"
      let confidence := dGet l "confidence" (.float 0)
      let asks_me := dGet l "asks_me_specifically" (.bool false)
      if !isFlaggableClassification classification then Except.ok false
      else do
        let c ← pyNumE confidence
        if c < min_conf then Except.ok false
        else if jTruthy asks_me then Except.ok true
        else Except.ok false
    | _ => Except.error "AttributeError: ai_result.get"
  else do
    let role ← get_recipient_role email m365_user_email
    if role == "to" then do
      let auto ← is_auto_notification email
      if !auto then do
        let subject ← lowerStrE (pyOr (dGetN email "subject") (.str ""))
        let body ← lowerStrE (pyOr (dGetN email "body_text") (.str ""))
        let content := subject ++ " " ++ (⟨body.toList.take 1000⟩ : String)
        if ACTION_KEYWORDS.any (fun kw => containsCS kw content.toList) then
          Except.ok true
        else Except.ok false
      else Except.ok false
    else Except.ok false

/-! ### Decision policy (spec §4.4)

`triage_email` is imported from `rules` by `heuristic_eval.py` and
`smoke_test_heuristics.py`, but its definition is not among the sources; the
functions below are modelled from the spec. -/

/-- An external classification verdict (spec §3 `ClassificationVerdict`). -/
structure ClassificationVerdict where
  classification : String
  confidence : Rat
  asks_me_specifically : Bool
deriving DecidableEq

/-- Modelled from the spec: steps 1–2 of the §4.4 decision policy (the
definition of `triage_email` is missing from the sources).  Step 1 runs the
heuristic evaluation; step 2 fuses the optional verdict, forcing
`decision = flag` and `score = max(score, 95)` when the verdict meets the
bar, and otherwise only marking the provenance. -/
def fuseVerdict (base : TriageResult)
    (verdict : Option ClassificationVerdict) (min_confidence : Rat) :
    TriageResult :=
  match verdict with
  | none => base
  | some v =>
    if (v.classification == "action_request" ||
        v.classification == "direct_question" ||
        v.classification == "meeting_request") &&
        decide (min_confidence ≤ v.confidence) && v.asks_me_specifically then
      { base with
        decision := "flag"
        priority_score := max base.priority_score 95
        source := "ai+heuristic"
        reason := "AI classified as " ++ v.classification ++ "; " ++
          base.reason }
    else { base with source := "heuristic_with_ai_context" }

/-- Modelled from the spec: steps 1–2 of §4.4 as one fallible computation. -/
def triage_fused (email : Dict) (verdict : Option ClassificationVerdict)
    (min_confidence : Rat) (profiles : Option JVal) (user_email : String)
    (vip : List String) (wt : Weights) (flagT surfT : Int) (now : Int) :
    Except String TriageResult := do
  let base ← evaluate_email email profiles user_email vip wt flagT surfT now
  Except.ok (fuseVerdict base verdict min_confidence)

/-- Modelled from the spec: the six ordered override rules of §4.4 step 3,
each mutating only the decision, applied once, in order. -/
def apply_override_rules (f : FeatureSet) (score : Int) (d0 : String) :
    String :=
  let d1 := if d0 == "flag" && f.recipient_role == "cc" &&
      !f.thread_addition_cc_me then "surface" else d0
  let d2 := if f.recipient_role == "to" && 3 ≤ f.to_count &&
      !f.direct_salutation && !f.last_request_phrase &&
      f.action_phrase_strong_hits == 0 && d1 == "flag" then "surface" else d1
  let d3 := if f.recipient_role == "to" && f.small_group_question &&
      !f.direct_salutation && !f.deadline_present && !f.last_request_phrase &&
      f.action_phrase_strong_hits == 0 && d2 == "flag" then "surface" else d2
  let d4 := if f.recipient_role == "to" && f.direct_salutation &&
      (f.imperative_present || f.question_present ||
        0 < f.action_phrase_strong_hits || 0 < f.action_phrase_weak_hits) &&
      55 ≤ score then "flag" else d3
  let d5 := if f.direct_salutation_to_me && f.to_count ≤ 3 && 40 ≤ score then
      "flag" else d4
  let d6 := if f.thread_addition_cc_me && 40 ≤ score then "flag" else d5
  d6

/-- Modelled from the spec: `triage_email` (§4.4) — base decision, AI
fusion, then the ordered override rules. -/
def triage_email (email : Dict) (verdict : Option ClassificationVerdict)
    (min_confidence : Rat) (profiles : Option JVal) (user_email : String)
    (vip : List String) (wt : Weights) (flagT surfT : Int) (now : Int) :
    Except String TriageResult := do
  let t ← triage_fused email verdict min_confidence profiles user_email vip
    wt flagT surfT now
  Except.ok { t with
    decision := apply_override_rules t.features t.priority_score t.decision }

/-! ### Auxiliary definitions for the verified properties -/

/-- Value of a successful computation, with a fallback. -/
def exceptD {α : Type} (d : α) : Except String α → α
  | .ok a => a
  | .error _ => d

/-- Sum of the points of a breakdown. -/
def sumPoints (l : List (String × Int)) : Int :=
  (l.map (fun p => p.2)).sum

/-- The non-zero contributions of `score_features` in evaluation order: the
gated non-zero fixed signals followed by a non-zero sender prior. -/
def specContribs (f : FeatureSet) (wt : Weights) (prior : Int) :
    List (String × Int) :=
  (sigGates f wt).filterMap
      (fun t => if t.2.2 && t.2.1 != 0 then some (t.1, t.2.1) else none) ++
    (if prior != 0 then [("sender_history", prior)] else [])

/-- The property claimed of a scoring result: the breakdown sums to the
returned (clamped) score. -/
def breakdownSumsToScore (e : Except String ScoreResult) : Prop :=
  ∀ r, e = .ok r → sumPoints r.breakdown = r.score

/-- A well-typed sender-history record. -/
structure SenderRecI where
  seen : Int
  flag_count : Int
  surface_count : Int
  ignore_count : Int
  last_seen : JVal

/-- JSON encoding of a well-typed sender record, in the field order used by
`update_sender_profiles`. -/
def encodeRec (r : SenderRecI) : JVal :=
  .obj [("seen", .int r.seen), ("flag_count", .int r.flag_count),
    ("surface_count", .int r.surface_count),
    ("ignore_count", .int r.ignore_count), ("last_seen", r.last_seen)]

/-- JSON encoding of a well-typed profile. -/
def encodeProfile (P : List (String × SenderRecI)) : JVal :=
  .obj [("senders", .obj (P.map (fun p => (p.1, encodeRec p.2))))]

/-- Lookup in a well-typed profile. -/
def lookupRec (P : List (String × SenderRecI)) (s : String) :
    Option SenderRecI :=
  (P.find? (fun p => p.1 == s)).map (fun p => p.2)

/-- The sender prior as worded by the spec: `(0, "sender_history")` for an
empty/unknown sender or fewer than 3 sightings, otherwise
`round((rate - 0.5) * 24)` clamped to the configured bounds. -/
def senderPriorSpec (sender : String)
    (P : Option (List (String × SenderRecI))) (maxBoost maxPenalty : Int) :
    Int × String :=
  if sender = "" then (0, "sender_history")
  else
    match P with
    | none => (0, "sender_history")
    | some l =>
      match lookupRec l sender with
      | none => (0, "sender_history")
      | some r =>
        if r.seen < 3 then (0, "sender_history")
        else
          (max maxPenalty (min maxBoost (pyRound
            ((((r.flag_count + r.surface_count : Int) : Rat) /
              (r.seen : Rat) - 1/2) * 24))), "sender_history")

/-- Expected effect of one `update_sender_profiles` iteration on a sender
record: `seen` and exactly the counter matching the decision (default
`ignore`) are incremented, `last_seen` is set to the update timestamp. -/
def bumpRec (r : SenderRecI) (d : JVal) (now : String) : SenderRecI :=
  let r1 : SenderRecI := { r with seen := r.seen + 1 }
  let r2 : SenderRecI :=
    if jEqStr d "flag" then { r1 with flag_count := r1.flag_count + 1 }
    else if jEqStr d "surface" then
      { r1 with surface_count := r1.surface_count + 1 }
    else { r1 with ignore_count := r1.ignore_count + 1 }
  { r2 with last_seen := .str now }

/-- Integer view of a stored counter (agrees with `int()` where it
succeeds). -/
def intViewD (v : JVal) : Int :=
  (pyIntE v).toOption.getD 0

/-- The `seen` count of a sender inside a senders dict. -/
def seenOfSenders (S : Dict) (s : String) : Int :=
  match jGet? S s with
  | some (.obj R) => intViewD (dGet R "seen" (.int 0))
  | _ => 0

/-- The `seen` count of a sender inside a whole profile value. -/
def seenOf (p : JVal) (s : String) : Int :=
  match p with
  | .obj P =>
    match jGet? P "senders" with
    | some (.obj S) => seenOfSenders S s
    | _ => 0
  | _ => 0

/-- The `ignore_count` of a sender inside a whole profile value. -/
def ignoreCountOf (p : JVal) (s : String) : Int :=
  match p with
  | .obj P =>
    match jGet? P "senders" with
    | some (.obj S) =>
      (match jGet? S s with
       | some (.obj R) => intViewD (dGet R "ignore_count" (.int 0))
       | _ => 0)
    | _ => 0
  | _ => 0

/-- Whether a sender has a record inside a whole profile value. -/
def hasSender (p : JVal) (s : String) : Bool :=
  match p with
  | .obj P =>
    match jGet? P "senders" with
    | some (.obj S) => hasKey S s
    | _ => false
  | _ => false

/-- The property claimed of messages without a resolved decision: updating
with them returns the profile unchanged. -/
def updateLeavesUnchanged (p : JVal) (msgs : List JVal) (now : String) :
    Prop :=
  update_sender_profiles p msgs now = .ok p

/-- A payload accepted by `load_sender_profiles`: a dict with a `"senders"`
key. -/
def isDictWithSenders : JVal → Bool
  | .obj l => hasKey l "senders"
  | _ => false

/-- The salutation punctuation class `[,;:]`. -/
def isPunctChar (c : Char) : Bool :=
  c == ',' || c == ';' || c == ':'

/-- The salutation property as worded: the text begins with optional
whitespace, one of the names `dan`, `dan/ben`, `dan and ben`
(case-insensitively), optional whitespace, then `,`, `;` or `:`. -/
def SalutationSpec (l : List Char) : Prop :=
  ∃ (ws1 name ws2 rest : List Char) (c : Char),
    l = ws1 ++ name ++ ws2 ++ c :: rest ∧
    (∀ x ∈ ws1, isSpaceChar x = true) ∧
    (∀ x ∈ ws2, isSpaceChar x = true) ∧
    (name.map Char.toLower = w "dan" ∨ name.map Char.toLower = w "dan/ben" ∨
      name.map Char.toLower = w "dan and ben") ∧
    isPunctChar c = true

/-! ### Concrete inputs for witnesses and counterexamples -/

/-- A message CC'd to the user that scores as a provisional flag. -/
def ccEmail : Dict :=
  [("from", .obj [("name", .str "Alice"), ("email", .str "vip@other.com")]),
   ("to", .arr [.str "a@company.com"]),
   ("cc", .arr [.str "me@company.com"]),
   ("subject", .str "Please review the contract"),
   ("body_text", .str
     "Please review and approve the agreement by Friday. Urgent."),
   ("is_read", .bool false), ("importance", .str "high"),
   ("has_attachments", .bool true)]

/-- The fused (pre-override) triage result of `ccEmail`. -/
def ccFused : TriageResult :=
  exceptD default (triage_fused ccEmail none (3/4) none "me@company.com"
    ["vip@other.com"] HEURISTIC_WEIGHTS 70 40 0)

/-- A feature set with a single firing signal of negative weight. -/
def fyiOnlyFeatures : FeatureSet :=
  { recipient_role := "", to_count := 0, is_unread := false,
    is_high_importance := false, has_attachments := false,
    is_external_sender := false, is_internal_sender := false,
    is_vip_sender := false, is_noreply_sender := false,
    automation_pattern_hit := false, action_phrase_strong_hits := 0,
    action_phrase_weak_hits := 0, direct_salutation := false,
    direct_salutation_to_me := false, small_group_question := false,
    thread_addition := false, thread_addition_cc_me := false,
    multi_to_no_salutation := false, last_request_phrase := false,
    question_present := false, imperative_present := false,
    deadline_present := false, urgency_present := false,
    approval_workflow_present := false, contract_finance_present := false,
    fyi_present := true, newsletter_present := false,
    no_action_present := false, is_recent := false, sender_email := "" }

/-- Scoring result of `fyiOnlyFeatures` under the default weights. -/
def fyiScore : ScoreResult :=
  exceptD default (score_features fyiOnlyFeatures HEURISTIC_WEIGHTS none)

/-- A well-typed AI verdict dict that passes the promotion bar. -/
def goodVerdict : Dict :=
  [("classification", .str "action_request"), ("confidence", .float (9/10)),
   ("asks_me_specifically", .bool true)]

/-- An incomplete AI verdict dict (no confidence field). -/
def incompleteVerdict : Dict :=
  [("classification", .str "action_request"),
   ("asks_me_specifically", .bool true)]

/-- A small well-typed profile for the sender-prior witness. -/
def priorProfile : List (String × SenderRecI) :=
  [("a@b.c", ⟨16, 9, 0, 7, .null⟩), ("d@e.f", ⟨2, 2, 0, 0, .null⟩)]

/-- A message with a sender but no triage decision. -/
def noDecisionMsg : JVal :=
  .obj [("from", .obj [("email", .str "a@b.c")])]

/-- The profile produced by updating the empty profile with
`noDecisionMsg`. -/
def noDecisionUpdated : JVal :=
  exceptD .null (update_sender_profiles emptyProfile [noDecisionMsg]
    "2026-01-01T00:00:00+00:00")

/-- A message dict with a sender and a resolved `flag` decision. -/
def flaggedMsgD : Dict :=
  [("from", .obj [("email", .str "a@b.c")]),
   ("triage", .obj [("decision", .str "flag")])]

/-- The same message as a value. -/
def flaggedMsg : JVal := .obj flaggedMsgD

/-- A profile with one sender, for the update witness. -/
def oneSenderProfile : JVal :=
  .obj [("senders", .obj [("a@b.c", encodeRec ⟨3, 1, 1, 1, .null⟩)])]

/-- The profile produced by updating `oneSenderProfile` with `flaggedMsg`. -/
def oneSenderUpdated : JVal :=
  exceptD .null (update_sender_profiles oneSenderProfile [flaggedMsg]
    "2026-01-01T00:00:00+00:00")

/-- The senders dict produced by one update step on the senders of
`oneSenderProfile`. -/
def oneSenderStepped : Dict :=
  exceptD [] (updateOne [("a@b.c", encodeRec ⟨3, 1, 1, 1, .null⟩)] flaggedMsg
    "2026-01-01T00:00:00+00:00")

/-- A message whose `to` field is null (Python `None`). -/
def nullToEmail : Dict := [("to", JVal.null)]

/-- A message whose received timestamp parses but carries no timezone. -/
def naiveTsEmail : Dict :=
  [("received_at", .str "2026-02-15T12:00:00")]

/-- A message opening with a direct salutation to Dan. -/
def salutationEmail : Dict :=
  [("to", .arr [.str "dan@x.com"]),
   ("body_text", .str "Dan, could you review this before Friday?")]

/-- Features extracted from `salutationEmail`. -/
def salutationFeatures : FeatureSet :=
  exceptD default (extract_features salutationEmail "dan@x.com" [] 0)

/-! ## Theorems -/

theorem bind_ok_ex {α β : Type} (a : α) (f : α → Except String β) :
    (Except.ok a >>= f) = f a := rfl

theorem bind_error_ex {α β : Type} (e : String) (f : α → Except String β) :
    ((Except.error e : Except String α) >>= f) = Except.error e := rfl

theorem ok_of_bind {α β : Type} {x : Except String α}
    {f : α → Except String β} {b : β} (h : (x >>= f) = .ok b) :
    ∃ a, x = .ok a ∧ f a = .ok b := by
  cases x with
  | ok a => exact ⟨a, rfl, h⟩
  | error e => rw [bind_error_ex] at h; exact absurd h (by simp)

theorem sumPoints_append (a b : List (String × Int)) :
    sumPoints (a ++ b) = sumPoints a + sumPoints b := by
  simp [sumPoints]

theorem addSig_score_eq (st : ScoreResult) (s : String) (p : Int) (g : Bool)
    (h : st.score = sumPoints st.breakdown) :
    (addSig st s p g).score = sumPoints (addSig st s p g).breakdown := by
  unfold addSig
  split
  · exact h
  · simp [sumPoints_append, sumPoints, h]

theorem foldl_addSig_score (l : List (String × Int × Bool)) :
    ∀ st : ScoreResult, st.score = sumPoints st.breakdown →
      (l.foldl (fun st t => addSig st t.1 t.2.1 t.2.2) st).score =
        sumPoints (l.foldl (fun st t => addSig st t.1 t.2.1 t.2.2)
          st).breakdown := by
  induction l with
  | nil => intro st h; exact h
  | cons a l ih =>
    intro st h
    exact ih _ (addSig_score_eq st a.1 a.2.1 a.2.2 h)

/-- C2: for every feature set, weight table and sender-profile mapping, the
score of `score_features` lies in `[0, 100]`, and it equals the clamp of the
raw (unclamped) sum of all contributions — the clamp is applied exactly
once, to the final running total. -/
theorem score_bounded_and_clamped_once (f : FeatureSet) (wt : Weights)
    (profiles : Option JVal) (r : ScoreResult)
    (h : score_features f wt profiles = .ok r) :
    0 ≤ r.score ∧ r.score ≤ 100 ∧
      r.score = max 0 (min 100 (sumPoints r.breakdown)) := by
  unfold score_features at h
  cases hp : bounded_sender_prior f.sender_email profiles wt with
  | error e => rw [hp, bind_error_ex] at h; exact absurd h (by simp)
  | ok pr =>
    rw [hp, bind_ok_ex] at h
    simp only [Except.ok.injEq] at h
    subst h
    have hsum :
        (addSig ((sigGates f wt).foldl
            (fun st t => addSig st t.1 t.2.1 t.2.2) ⟨0, []⟩)
          pr.2 pr.1 true).score =
        sumPoints (addSig ((sigGates f wt).foldl
            (fun st t => addSig st t.1 t.2.1 t.2.2) ⟨0, []⟩)
          pr.2 pr.1 true).breakdown :=
      addSig_score_eq _ _ _ _ (foldl_addSig_score (sigGates f wt) ⟨0, []⟩ rfl)
    refine ⟨le_max_left 0 _, ?_, ?_⟩
    · exact max_le (by norm_num) (min_le_left 100 _)
    · simp only [hsum]

/-- C2 witness: the bounds and single final clamp hold at a concrete feature
set whose raw total is negative (so clamping per addition would differ). -/
theorem score_bounded_witness :
    0 ≤ fyiScore.score ∧ fyiScore.score ≤ 100 ∧
      fyiScore.score = max 0 (min 100 (sumPoints fyiScore.breakdown)) :=
  score_bounded_and_clamped_once fyiOnlyFeatures HEURISTIC_WEIGHTS none
    fyiScore rfl

/-- C6 counterexample: at a feature set whose only firing signal has a
negative weight, the breakdown sums to `-14` but the returned clamped score
is `0`, refuting the claim that the breakdown points sum to the final
clamped score. -/
theorem breakdown_sum_not_score :
    ¬ breakdownSumsToScore
      (score_features fyiOnlyFeatures HEURISTIC_WEIGHTS none) := by
  intro h
  exact absurd (h fyiScore rfl) (by decide)

theorem foldl_addSig_breakdown (l : List (String × Int × Bool)) :
    ∀ st : ScoreResult,
      (l.foldl (fun st t => addSig st t.1 t.2.1 t.2.2) st).breakdown =
        st.breakdown ++ l.filterMap
          (fun t => if t.2.2 && t.2.1 != 0 then some (t.1, t.2.1) else none) := by
  induction l with
  | nil => intro st; simp
  | cons a l ih =>
    intro st
    rcases a with ⟨s, p, g⟩
    simp only [List.foldl_cons, List.filterMap_cons]
    cases g with
    | false =>
      have h1 : addSig st s p false = st := by simp [addSig]
      rw [h1, ih st]
      simp
    | true =>
      by_cases hp : p = 0
      · have h1 : addSig st s p true = st := by simp [addSig, hp]
        rw [h1, ih st]
        simp [hp]
      · have h1 : addSig st s p true =
            ⟨st.score + p, st.breakdown ++ [(s, p)]⟩ := by
          simp [addSig, hp]
        have hp' : (p != 0) = true := by simpa using hp
        rw [h1, ih]
        simp [hp']

theorem bounded_sender_prior_name (sender : String) (profiles : Option JVal)
    (wt : Weights) (pr : Int × String)
    (h : bounded_sender_prior sender profiles wt = .ok pr) :
    pr.2 = "sender_history" := by
  unfold bounded_sender_prior at h
  by_cases hg : (sender == "" || !profilesTruthy profiles) = true
  · rw [if_pos hg] at h
    simp only [Except.ok.injEq] at h; rw [← h]
  · rw [if_neg hg] at h
    obtain ⟨P, hP, h⟩ := ok_of_bind h
    obtain ⟨S, hS, h⟩ := ok_of_bind h
    by_cases hrt : (!jTruthy (dGetN S sender)) = true
    · rw [if_pos hrt] at h
      simp only [Except.ok.injEq] at h; rw [← h]
    · rw [if_neg hrt] at h
      obtain ⟨rd, hrd, h⟩ := ok_of_bind h
      obtain ⟨seen, hseen, h⟩ := ok_of_bind h
      by_cases hlt : seen < 3
      · rw [if_pos hlt] at h
        simp only [Except.ok.injEq] at h; rw [← h]
      · rw [if_neg hlt] at h
        obtain ⟨fc, hfc, h⟩ := ok_of_bind h
        obtain ⟨sc, hsc, h⟩ := ok_of_bind h
        simp only [Except.ok.injEq] at h; rw [← h]

/-- C6 amended: the breakdown is exactly the ordered list of non-zero gated
contributions (fixed signals in evaluation order, then a non-zero sender
prior), and the returned score is the clamp to `[0, 100]` of the breakdown
sum — the two agree exactly when the raw sum already lies in `[0, 100]`. -/
theorem breakdown_ordered_nonzero_and_clamped (f : FeatureSet) (wt : Weights)
    (profiles : Option JVal) (r : ScoreResult)
    (h : score_features f wt profiles = .ok r) :
    ∃ prior, bounded_sender_prior f.sender_email profiles wt =
        .ok (prior, "sender_history") ∧
      r.breakdown = specContribs f wt prior ∧
      r.score = max 0 (min 100 (sumPoints r.breakdown)) := by
  have hclamp := score_bounded_and_clamped_once f wt profiles r h
  unfold score_features at h
  cases hp : bounded_sender_prior f.sender_email profiles wt with
  | error e => rw [hp, bind_error_ex] at h; exact absurd h (by simp)
  | ok pr =>
    obtain ⟨prv, prn⟩ := pr
    have hname := bounded_sender_prior_name _ _ _ _ hp
    simp only at hname
    subst hname
    rw [hp, bind_ok_ex] at h
    simp only [Except.ok.injEq] at h
    subst h
    refine ⟨prv, rfl, ?_, hclamp.2.2⟩
    show (addSig ((sigGates f wt).foldl
        (fun st t => addSig st t.1 t.2.1 t.2.2) ⟨0, []⟩)
        "sender_history" prv true).breakdown = _
    unfold specContribs
    by_cases hz : prv = 0
    · have h1 : addSig ((sigGates f wt).foldl
          (fun st t => addSig st t.1 t.2.1 t.2.2) ⟨0, []⟩)
          "sender_history" prv true =
          (sigGates f wt).foldl
            (fun st t => addSig st t.1 t.2.1 t.2.2) ⟨0, []⟩ := by
        simp [addSig, hz]
      rw [h1, foldl_addSig_breakdown]
      simp [hz]
    · have h1 : addSig ((sigGates f wt).foldl
          (fun st t => addSig st t.1 t.2.1 t.2.2) ⟨0, []⟩)
          "sender_history" prv true =
          ⟨((sigGates f wt).foldl (fun st t => addSig st t.1 t.2.1 t.2.2)
              ⟨0, []⟩).score + prv,
            ((sigGates f wt).foldl (fun st t => addSig st t.1 t.2.1 t.2.2)
              ⟨0, []⟩).breakdown ++ [("sender_history", prv)]⟩ := by
        simp [addSig, hz]
      rw [h1]
      show ((sigGates f wt).foldl (fun st t => addSig st t.1 t.2.1 t.2.2)
          ⟨0, []⟩).breakdown ++ [("sender_history", prv)] = _
      rw [foldl_addSig_breakdown]
      have hz' : (prv != 0) = true := by simpa using hz
      simp [hz']

/-- C6 amended witness: at the concrete negative-total feature set the
breakdown is the ordered non-zero contribution list and the score is the
clamped sum. -/
theorem breakdown_ordered_witness :
    ∃ prior, bounded_sender_prior fyiOnlyFeatures.sender_email none
        HEURISTIC_WEIGHTS = .ok (prior, "sender_history") ∧
      fyiScore.breakdown = specContribs fyiOnlyFeatures HEURISTIC_WEIGHTS
        prior ∧
      fyiScore.score = max 0 (min 100 (sumPoints fyiScore.breakdown)) :=
  breakdown_ordered_nonzero_and_clamped fyiOnlyFeatures HEURISTIC_WEIGHTS
    none fyiScore rfl

/-- C5 (the code, evaluated at the failing inputs): `extract_features`
propagates a `TypeError` for a message whose `to` field is null while a user
email is configured, and for a message whose received timestamp parses but
carries no timezone — both contradicting the never-raises contract. -/
theorem extract_features_raises :
    extract_features nullToEmail "dan@example.com" [] 0 =
      .error "TypeError: object is not iterable" ∧
    extract_features naiveTsEmail "" [] 0 =
      .error "TypeError: naive minus aware datetime" :=
  ⟨rfl, rfl⟩

/-- C8: on a profile file whose bytes are not valid UTF-8,
`path.read_text(encoding="utf-8")` raises `UnicodeDecodeError` — a
`ValueError` caught by neither `json.JSONDecodeError` nor `OSError` in the
`except` clause — so `load_sender_profiles` raises, contradicting the
never-raises contract; the caught states do fall back to the empty
profile, and `save_sender_profiles` does swallow write failures. -/
theorem load_sender_profiles_raises :
    load_sender_profiles .decodeFailure =
      .error "UnicodeDecodeError: invalid start byte" ∧
    load_sender_profiles .missing = .ok emptyProfile ∧
    load_sender_profiles .readFailure = .ok emptyProfile ∧
    load_sender_profiles .parseFailure = .ok emptyProfile ∧
    load_sender_profiles (.payload (.int 3)) = .ok emptyProfile ∧
    (∀ p fs, save_sender_profiles p false fs = fs) :=
  ⟨rfl, rfl, rfl, rfl, rfl, fun _ _ => rfl⟩

/-- C9: saving a well-formed profile (a dict with a `"senders"` key) and
loading it back yields a structurally equal profile, for any prior file
state, provided the write lands. -/
theorem profile_round_trip (l : List (String × JVal)) (fs : FsState)
    (h : hasKey l "senders" = true) :
    load_sender_profiles (save_sender_profiles (.obj l) true fs) =
      .ok (.obj l) := by
  simp [save_sender_profiles, load_sender_profiles, h]

/-- C9 witness: the round trip at the concrete empty profile. -/
theorem profile_round_trip_witness :
    load_sender_profiles (save_sender_profiles emptyProfile true .missing) =
      .ok emptyProfile :=
  profile_round_trip [("senders", .obj [])] .missing rfl

theorem jGet?_cons (k : String) (v : JVal) (l : Dict) (s : String) :
    jGet? ((k, v) :: l) s = if k == s then some v else jGet? l s := by
  by_cases h : k == s <;> simp [jGet?, List.find?, h]

theorem lookupRec_cons (k : String) (r : SenderRecI)
    (P : List (String × SenderRecI)) (s : String) :
    lookupRec ((k, r) :: P) s = if k == s then some r else lookupRec P s := by
  by_cases h : k == s <;> simp [lookupRec, List.find?, h]

theorem jGet?_map_encode (P : List (String × SenderRecI)) (s : String) :
    jGet? (P.map (fun p => (p.1, encodeRec p.2))) s =
      (lookupRec P s).map encodeRec := by
  induction P with
  | nil => rfl
  | cons a P ih =>
    rw [List.map_cons, jGet?_cons, lookupRec_cons]
    by_cases h : a.1 == s <;> simp [h, ih]

/-- C4: the bounded sender prior agrees with the spec formula — it is
`(0, "sender_history")` for an empty sender, an absent profile, an unknown
sender or fewer than 3 sightings, and otherwise
`round((rate - 0.5) * 24)` clamped to the configured bounds (Python 3
`round`, ties to even; floats modelled as exact rationals). -/
theorem sender_prior_matches_spec (sender : String)
    (P : List (String × SenderRecI)) (wt : Weights) :
    bounded_sender_prior sender none wt =
      .ok (senderPriorSpec sender none
        (wGet wt "sender_history_max_boost" 12)
        (wGet wt "sender_history_max_penalty" (-12))) ∧
    bounded_sender_prior sender (some (encodeProfile P)) wt =
      .ok (senderPriorSpec sender (some P)
        (wGet wt "sender_history_max_boost" 12)
        (wGet wt "sender_history_max_penalty" (-12))) := by
  constructor
  · have hspec : senderPriorSpec sender none
        (wGet wt "sender_history_max_boost" 12)
        (wGet wt "sender_history_max_penalty" (-12)) =
        (0, "sender_history") := by
      unfold senderPriorSpec; split <;> rfl
    rw [hspec]
    unfold bounded_sender_prior
    rw [if_pos (by simp [profilesTruthy])]
  · by_cases hs : sender = ""
    · subst hs
      unfold bounded_sender_prior senderPriorSpec
      rw [if_pos (by simp)]
      rfl
    · have hg : ¬((sender == "" ||
          !profilesTruthy (some (encodeProfile P))) = true) := by
        simp [profilesTruthy, encodeProfile, jTruthy, hs]
      unfold bounded_sender_prior
      rw [if_neg hg]
      have h1 : asObjE "AttributeError: profiles.get"
          (profilesVal (some (encodeProfile P))) =
          .ok [("senders", .obj (P.map (fun p => (p.1, encodeRec p.2))))] :=
        rfl
      rw [h1, bind_ok_ex]
      have h2 : asObjE "AttributeError: senders.get"
          (dGet [("senders", .obj (P.map (fun p => (p.1, encodeRec p.2))))]
            "senders" (.obj [])) =
          .ok (P.map (fun p => (p.1, encodeRec p.2))) := rfl
      rw [h2, bind_ok_ex]
      have h3 : dGetN (P.map (fun p => (p.1, encodeRec p.2))) sender =
          ((lookupRec P sender).map encodeRec).getD .null := by
        simp [dGetN, dGet, jGet?_map_encode]
      rw [h3]
      cases hrec : lookupRec P sender with
      | none =>
        simp only [senderPriorSpec, hrec, if_neg hs]
        simp [jTruthy]
      | some r =>
        simp only [senderPriorSpec, hrec, if_neg hs]
        simp only [show ((Option.map encodeRec (some r)).getD JVal.null) =
          encodeRec r from rfl]
        rw [if_neg (by simp [encodeRec, jTruthy])]
        have h4 : asObjE "AttributeError: rec.get" (encodeRec r) =
            .ok [("seen", .int r.seen), ("flag_count", .int r.flag_count),
              ("surface_count", .int r.surface_count),
              ("ignore_count", .int r.ignore_count),
              ("last_seen", r.last_seen)] := rfl
        rw [h4, bind_ok_ex]
        have h5 : pyIntE (dGet [("seen", JVal.int r.seen),
            ("flag_count", .int r.flag_count),
            ("surface_count", .int r.surface_count),
            ("ignore_count", .int r.ignore_count),
            ("last_seen", r.last_seen)] "seen" (.int 0)) = .ok r.seen := rfl
        rw [h5, bind_ok_ex]
        by_cases hlt : r.seen < 3
        · simp only [if_pos hlt]
        · simp only [if_neg hlt]
          have h6 : pyIntE (dGet [("seen", JVal.int r.seen),
              ("flag_count", .int r.flag_count),
              ("surface_count", .int r.surface_count),
              ("ignore_count", .int r.ignore_count),
              ("last_seen", r.last_seen)] "flag_count" (.int 0)) =
              .ok r.flag_count := rfl
          have h7 : pyIntE (dGet [("seen", JVal.int r.seen),
              ("flag_count", .int r.flag_count),
              ("surface_count", .int r.surface_count),
              ("ignore_count", .int r.ignore_count),
              ("last_seen", r.last_seen)] "surface_count" (.int 0)) =
              .ok r.surface_count := rfl
          rw [h6, bind_ok_ex, h7, bind_ok_ex]
          have hnz : (r.seen != 0) = true := by
            simp only [bne_iff_ne, ne_eq]
            omega
          rw [if_pos hnz]

/-- C3: the AI-driven flag promotion fires exactly when the classification
is flaggable, the confidence (readable as a number) is at least the
threshold, and `asks_me_specifically` is truthy; the AI branch of
`is_flag_candidate` computes the same function; a verdict without a
confidence field defaults it to 0.0 and can never fire for a positive
threshold. -/
theorem ai_flag_promotion_iff (v : Dict) (email : Dict) (mc : Rat)
    (u : String) :
    (compute_final_flag v mc = .ok true ↔
      (isFlaggableClassification (dGet v "classification" (.str "unknown")) =
          true ∧
        ∃ c, pyNumE (dGet v "confidence" (.float 0)) = .ok c ∧ mc ≤ c ∧
          jTruthy (dGet v "asks_me_specifically" (.bool false)) = true)) ∧
    (jTruthy (.obj v) = true →
      is_flag_candidate email (some (.obj v)) mc u = compute_final_flag v mc) ∧
    (jGet? v "confidence" = none → 0 < mc →
      compute_final_flag v mc = .ok false) := by
  refine ⟨?_, ?_, ?_⟩
  · unfold compute_final_flag
    by_cases hf : isFlaggableClassification
        (dGet v "classification" (.str "unknown")) = true
    · rw [if_neg (by simp [hf])]
      cases hc : pyNumE (dGet v "confidence" (.float 0)) with
      | error e =>
        rw [bind_error_ex]
        simp [hc]
      | ok c =>
        rw [bind_ok_ex]
        by_cases hlt : c < mc
        · rw [if_pos hlt]
          constructor
          · intro h; exact absurd h (by simp)
          · rintro ⟨-, c', hc', hle, -⟩
            simp only [Except.ok.injEq] at hc'
            subst hc'
            exact absurd hle (not_le.mpr hlt)
        · rw [if_neg hlt]
          constructor
          · intro h
            simp only [Except.ok.injEq] at h
            exact ⟨hf, c, rfl, le_of_not_lt hlt, h⟩
          · rintro ⟨-, c', hc', hle, hasks⟩
            rw [hasks]

    · rw [if_pos (by simp [hf])]
      constructor
      · intro h; exact absurd h (by simp)
      · rintro ⟨hf', -⟩; exact absurd hf' hf
  · intro htr
    unfold is_flag_candidate compute_final_flag
    have ht : aiTruthyOpt (some (.obj v)) = true := htr
    rw [if_pos ht]
    cases hcl : jGet? v "classification" with
    | none =>
      have e1 : dGetN v "classification" = .null := by
        simp [dGetN, dGet, hcl]
      have e2 : dGet v "classification" (.str "unknown") = .str "unknown" := by
        simp [dGet, hcl]
      simp only [e1, e2]
      rw [if_pos (by simp [isFlaggableClassification, jEqStr]),
        if_pos (by simp [isFlaggableClassification, jEqStr])]
    | some x =>
      have e1 : dGetN v "classification" = x := by simp [dGetN, dGet, hcl]
      have e2 : dGet v "classification" (.str "unknown") = x := by
        simp [dGet, hcl]
      have okif : (if jTruthy (dGet v "asks_me_specifically" (.bool false)) =
          true then (Except.ok true : Except String Bool) else
          Except.ok false) =
          Except.ok (jTruthy (dGet v "asks_me_specifically" (.bool false))) := by
        cases jTruthy (dGet v "asks_me_specifically" (.bool false)) <;> simp
      simp only [e1, e2, okif]
  · intro hnone hpos
    unfold compute_final_flag
    have e0 : dGet v "confidence" (.float 0) = .float 0 := by
      simp [dGet, hnone]
    rw [e0]
    by_cases hf : isFlaggableClassification
        (dGet v "classification" (.str "unknown")) = true
    · rw [if_neg (by simp [hf])]
      have : pyNumE (JVal.float 0) = .ok 0 := rfl
      rw [this, bind_ok_ex, if_pos hpos]
    · rw [if_pos (by simp [hf])]

/-- C3 witness: the promotion fires on a complete passing verdict, the AI
branch of `is_flag_candidate` agrees, and an incomplete verdict cannot fire
at threshold 3/4. -/
theorem ai_flag_promotion_witness :
    compute_final_flag goodVerdict (3/4) = .ok true ∧
    is_flag_candidate [] (some (.obj goodVerdict)) (3/4) "" =
      compute_final_flag goodVerdict (3/4) ∧
    compute_final_flag incompleteVerdict (3/4) = .ok false :=
  ⟨(ai_flag_promotion_iff goodVerdict [] (3/4) "").1.mpr
      ⟨rfl, 9/10, rfl, by norm_num, rfl⟩,
   (ai_flag_promotion_iff goodVerdict [] (3/4) "").2.1 rfl,
   (ai_flag_promotion_iff incompleteVerdict [] (3/4) "").2.2 rfl
     (by norm_num)⟩

theorem extract_features_ok_inv (email : Dict) (u : String)
    (vip : List String) (now : Int) (f : FeatureSet)
    (h : extract_features email u vip now = .ok f) :
    ∃ ctx, extractCore email (pyLower u) now = .ok ctx ∧
      f = mkFeatureSet email (pyLower u) vip ctx := by
  unfold extract_features at h
  cases hc : extractCore email (pyLower u) now with
  | error e => rw [hc] at h; exact absurd h (by simp [Except.map])
  | ok ctx =>
    rw [hc] at h
    simp only [Except.map, Except.ok.injEq] at h
    exact ⟨ctx, rfl, h.symm⟩

theorem extractCore_ok_parts (email : Dict) (u : String) (now : Int)
    (ctx : ExtractCtx) (h : extractCore email u now = .ok ctx) :
    sender_email email = .ok ctx.sender ∧
    recipient_role email u = .ok ctx.role ∧
    bodyTextOf email = .ok ctx.body_text := by
  unfold extractCore at h
  obtain ⟨sender, hsender, h⟩ := ok_of_bind h
  obtain ⟨role, hrole, h⟩ := ok_of_bind h
  obtain ⟨subject, hsubject, h⟩ := ok_of_bind h
  obtain ⟨toLen, htoLen, h⟩ := ok_of_bind h
  obtain ⟨ccLen, hccLen, h⟩ := ok_of_bind h
  obtain ⟨toCount, htoCount, h⟩ := ok_of_bind h
  obtain ⟨bodyText, hbody, h⟩ := ok_of_bind h
  obtain ⟨recent, hrecent, h⟩ := ok_of_bind h
  simp only [Except.ok.injEq] at h
  subst h
  exact ⟨hsender, hrole, hbody⟩

theorem features_compound_fields (email : Dict) (u : String)
    (vip : List String) (now : Int) (f : FeatureSet)
    (h : extract_features email u vip now = .ok f) :
    f.direct_salutation_to_me =
        (f.direct_salutation && (f.recipient_role == "to")) ∧
    f.thread_addition_cc_me =
        (f.thread_addition && (f.recipient_role == "cc")) := by
  obtain ⟨ctx, -, rfl⟩ := extract_features_ok_inv email u vip now f h
  exact ⟨rfl, rfl⟩

theorem evaluate_email_ok_features (email : Dict) (profiles : Option JVal)
    (u : String) (vip : List String) (wt : Weights) (ft st now : Int)
    (t : TriageResult)
    (h : evaluate_email email profiles u vip wt ft st now = .ok t) :
    extract_features email u vip now = .ok t.features := by
  unfold evaluate_email at h
  obtain ⟨f, hf, h⟩ := ok_of_bind h
  obtain ⟨sc, hsc, h⟩ := ok_of_bind h
  simp only [Except.ok.injEq] at h
  rw [hf]
  rw [← h]

theorem fuseVerdict_features (base : TriageResult)
    (verdict : Option ClassificationVerdict) (mc : Rat) :
    (fuseVerdict base verdict mc).features = base.features := by
  unfold fuseVerdict
  cases verdict with
  | none => rfl
  | some v => split <;> first | rfl | (split <;> rfl)

theorem fuseVerdict_breakdown (base : TriageResult)
    (verdict : Option ClassificationVerdict) (mc : Rat) :
    (fuseVerdict base verdict mc).score_breakdown = base.score_breakdown := by
  unfold fuseVerdict
  cases verdict with
  | none => rfl
  | some v => split <;> first | rfl | (split <;> rfl)

theorem triage_fused_ok_features (email : Dict)
    (verdict : Option ClassificationVerdict) (mc : Rat)
    (profiles : Option JVal) (u : String) (vip : List String) (wt : Weights)
    (ft st now : Int) (t : TriageResult)
    (h : triage_fused email verdict mc profiles u vip wt ft st now = .ok t) :
    extract_features email u vip now = .ok t.features := by
  unfold triage_fused at h
  obtain ⟨base, hbase, h⟩ := ok_of_bind h
  have hb := evaluate_email_ok_features email profiles u vip wt ft st now
    base hbase
  simp only [Except.ok.injEq] at h
  rw [← h, fuseVerdict_features]
  exact hb

/-- C1: for any message whose provisional decision after threshold
classification and AI fusion is `flag`, with `recipient_role = cc` and a
false `thread_addition_cc_me`, the final decision of the (spec-modelled)
triage is `surface`, and the override pass leaves the score unchanged. -/
theorem cc_dampening_rule (email : Dict)
    (verdict : Option ClassificationVerdict) (mc : Rat)
    (profiles : Option JVal) (u : String) (vip : List String) (wt : Weights)
    (ft st now : Int) (t : TriageResult)
    (hf : triage_fused email verdict mc profiles u vip wt ft st now = .ok t)
    (hd : t.decision = "flag")
    (hcc : t.features.recipient_role = "cc")
    (hth : t.features.thread_addition_cc_me = false) :
    (triage_email email verdict mc profiles u vip wt ft st now).map
      (fun r => (r.decision, r.priority_score)) =
      .ok ("surface", t.priority_score) := by
  have hx := triage_fused_ok_features email verdict mc profiles u vip wt ft
    st now t hf
  have hds := (features_compound_fields email u vip now t.features hx).1
  have hds0 : t.features.direct_salutation_to_me = false := by
    rw [hds, hcc]
    simp
  unfold triage_email
  rw [hf, bind_ok_ex]
  simp only [Except.map, Except.ok.injEq]
  rw [hd]
  unfold apply_override_rules
  rw [hcc, hth, hds0]
  simp

/-- C1 witness: a concrete CC'd message that reaches a provisional `flag`
(score 100) is demoted to `surface` with its score intact. -/
theorem cc_dampening_witness :
    (triage_email ccEmail none (3/4) none "me@company.com" ["vip@other.com"]
        HEURISTIC_WEIGHTS 70 40 0).map
      (fun r => (r.decision, r.priority_score)) =
      .ok ("surface", ccFused.priority_score) :=
  cc_dampening_rule ccEmail none (3/4) none "me@company.com"
    ["vip@other.com"] HEURISTIC_WEIGHTS 70 40 0 ccFused rfl rfl rfl rfl

theorem takeLit_some (pat : List Char) :
    ∀ (l rest : List Char), takeLit pat l = some rest →
      ∃ pre, l = pre ++ rest ∧ pre.map Char.toLower = pat := by
  induction pat with
  | nil =>
    intro l rest h
    simp only [takeLit, Option.some.injEq] at h
    exact ⟨[], by simp [h]⟩
  | cons p ps ih =>
    intro l rest h
    cases l with
    | nil => simp [takeLit] at h
    | cons c cs =>
      simp only [takeLit] at h
      by_cases hc : (c.toLower == p) = true
      · rw [if_pos hc] at h
        obtain ⟨pre, rfl, hm⟩ := ih cs rest h
        exact ⟨c :: pre, rfl, by simp [hm, beq_iff_eq.mp hc]⟩
      · rw [if_neg hc] at h
        exact absurd h (by simp)

theorem takeLit_of_map (pre : List Char) (rest : List Char) :
    takeLit (pre.map Char.toLower) (pre ++ rest) = some rest := by
  induction pre with
  | nil => rfl
  | cons c cs ih => simp [takeLit, ih]

theorem dropWhile_append_all {p : Char → Bool} (ws l : List Char)
    (h : ∀ x ∈ ws, p x = true) :
    (ws ++ l).dropWhile p = l.dropWhile p := by
  induction ws with
  | nil => rfl
  | cons c cs ih =>
    have hc : p c = true := h c (by simp)
    simp only [List.cons_append, List.dropWhile_cons, hc, if_pos]
    exact ih (fun x hx => h x (by simp [hx]))

theorem dropWhile_cons_false {p : Char → Bool} (c : Char) (l : List Char)
    (h : p c = false) : (c :: l).dropWhile p = c :: l := by
  simp [List.dropWhile_cons, h]

theorem space_toLower (x : Char) (h : isSpaceChar x = true) :
    x.toLower = x := by
  simp only [isSpaceChar, Bool.or_eq_true, beq_iff_eq] at h
  rcases h with ((((h | h) | h) | h) | h) | h <;> subst h <;> decide

theorem punct_not_space (c : Char) (h : isPunctChar c = true) :
    isSpaceChar c = false := by
  simp only [isPunctChar, Bool.or_eq_true, beq_iff_eq] at h
  rcases h with (h | h) | h <;> subst h <;> decide

theorem salutation_name_head (name : List Char)
    (h : name.map Char.toLower = w "dan" ∨
      name.map Char.toLower = w "dan/ben" ∨
      name.map Char.toLower = w "dan and ben") :
    ∃ c cs, name = c :: cs ∧ isSpaceChar c = false := by
  have hhead : ∃ c cs, name = c :: cs ∧ c.toLower = 'd' := by
    rcases h with h | h | h <;>
    · cases name with
      | nil => exact absurd h (by simp [w])
      | cons c cs =>
        refine ⟨c, cs, rfl, ?_⟩
        have := congrArg (fun l => l.headD ' ') h
        simpa [w] using this
  obtain ⟨c, cs, rfl, hc⟩ := hhead
  refine ⟨c, cs, rfl, ?_⟩
  by_contra hsp
  have hsp' : isSpaceChar c = true := by
    cases hx : isSpaceChar c
    · exact absurd hx hsp
    · rfl
  have := space_toLower c hsp'
  rw [this] at hc
  subst hc
  exact absurd hsp' (by decide)

/-- The salutation matcher is equivalent to its worded specification. -/
theorem salutation_iff (l : List Char) :
    direct_salutation_search l = true ↔ SalutationSpec l := by
  constructor
  · intro h
    simp only [direct_salutation_search, List.any_eq_true] at h
    obtain ⟨name, hmem, hm⟩ := h
    cases ht : takeLit name (l.dropWhile isSpaceChar) with
    | none => simp [nameMatch, ht] at hm
    | some rest =>
      simp only [nameMatch, ht] at hm
      cases hd : rest.dropWhile isSpaceChar with
      | nil => simp [punctAfterWs, hd] at hm
      | cons c tail =>
        simp only [punctAfterWs, hd] at hm
        obtain ⟨pre, hpre, hplow⟩ := takeLit_some name _ rest ht
        refine ⟨l.takeWhile isSpaceChar, pre, rest.takeWhile isSpaceChar,
          tail, c, ?_, ?_, ?_, ?_, hm⟩
        · have h1 : l = l.takeWhile isSpaceChar ++
              (pre ++ (rest.takeWhile isSpaceChar ++ c :: tail)) := by
            conv_lhs => rw [← List.takeWhile_append_dropWhile
              (p := isSpaceChar) (l := l)]
            rw [hpre]
            congr 2
            conv_lhs => rw [← List.takeWhile_append_dropWhile
              (p := isSpaceChar) (l := rest), hd]
          simpa [List.append_assoc] using h1
        · intro x hx; exact List.mem_takeWhile_imp hx
        · intro x hx; exact List.mem_takeWhile_imp hx
        · rw [hplow]
          simpa using hmem
  · rintro ⟨ws1, name, ws2, rest, c, heq, hws1, hws2, hname, hpunct⟩
    obtain ⟨nm, nmtl, hn, hnsp⟩ := salutation_name_head name hname
    have heq' : l = ws1 ++ (name ++ (ws2 ++ c :: rest)) := by
      rw [heq]; simp [List.append_assoc]
    subst heq'
    simp only [direct_salutation_search, List.any_eq_true]
    refine ⟨name.map Char.toLower, by rcases hname with h | h | h <;>
      simp [h], ?_⟩
    have hdrop : ((ws1 ++ (name ++ (ws2 ++ c :: rest))).dropWhile
        isSpaceChar) = name ++ (ws2 ++ c :: rest) := by
      rw [dropWhile_append_all ws1 _ hws1, hn]
      exact dropWhile_cons_false nm _ hnsp
    rw [hdrop]
    simp only [nameMatch, takeLit_of_map name (ws2 ++ c :: rest)]
    have hdrop2 : (ws2 ++ c :: rest).dropWhile isSpaceChar = c :: rest := by
      rw [dropWhile_append_all ws2 _ hws2]
      exact dropWhile_cons_false c rest (punct_not_space c hpunct)
    simp only [punctAfterWs, hdrop2]
    exact hpunct

/-- C10: `direct_salutation` is true exactly when the stripped body text
(falling back to the preview), within its first 80 characters, begins with
`dan`, `dan/ben` or `dan and ben` (case-insensitively, with optional
surrounding whitespace) followed by `,`, `;` or `:`; and
`direct_salutation_to_me` is that conjoined with `recipient_role = to`, so a
greeting naming anyone else yields both false. -/
theorem direct_salutation_characterization (email : Dict) (u : String)
    (vip : List String) (now : Int) (f : FeatureSet)
    (h : extract_features email u vip now = .ok f) :
    ∃ b, bodyTextOf email = .ok b ∧
      (f.direct_salutation = true ↔ SalutationSpec (b.toList.take 80)) ∧
      f.direct_salutation_to_me =
        (f.direct_salutation && (f.recipient_role == "to")) := by
  obtain ⟨ctx, hcore, rfl⟩ := extract_features_ok_inv email u vip now f h
  obtain ⟨-, -, hbody⟩ := extractCore_ok_parts email (pyLower u) now ctx hcore
  refine ⟨ctx.body_text, hbody, ?_, rfl⟩
  exact salutation_iff (ctx.body_text.toList.take 80)

/-- C10 witness: a concrete message whose body opens with a salutation to
Dan satisfies the characterization. -/
theorem direct_salutation_witness :
    ∃ b, bodyTextOf salutationEmail = .ok b ∧
      (salutationFeatures.direct_salutation = true ↔
        SalutationSpec (b.toList.take 80)) ∧
      salutationFeatures.direct_salutation_to_me =
        (salutationFeatures.direct_salutation &&
          (salutationFeatures.recipient_role == "to")) :=
  direct_salutation_characterization salutationEmail "dan@x.com" [] 0
    salutationFeatures rfl

theorem jGet?_dSet (l : Dict) (k : String) (v : JVal) (t : String) :
    jGet? (dSet l k v) t = if k == t then some v else jGet? l t := by
  induction l with
  | nil =>
    show jGet? [(k, v)] t = _
    rw [jGet?_cons]
  | cons a l ih =>
    rcases a with ⟨k1, v1⟩
    by_cases h1 : (k1 == k) = true
    · have hk : k1 = k := beq_iff_eq.mp h1
      subst hk
      have hd : dSet ((k1, v1) :: l) k1 v = (k1, v) :: l := by
        simp [dSet]
      rw [hd, jGet?_cons, jGet?_cons]
      by_cases h2 : (k1 == t) = true <;> simp [h2]
    · have hd : dSet ((k1, v1) :: l) k v = (k1, v1) :: dSet l k v := by
        simp [dSet, h1]
      rw [hd, jGet?_cons, jGet?_cons, ih]
      by_cases h2 : (k1 == t) = true
      · have e1 : k1 = t := beq_iff_eq.mp h2
        subst e1
        have hkt : (k == k1) = false := by
          cases hx : (k == k1)
          · rfl
          · exact absurd (beq_iff_eq.mpr (beq_iff_eq.mp hx).symm) h1
        simp [h2, hkt]
      · simp [h2]

theorem jGet?_append_single (l : Dict) (k : String) (v : JVal) (t : String) :
    jGet? (l ++ [(k, v)]) t =
      (match jGet? l t with
       | some x => some x
       | none => if k == t then some v else none) := by
  induction l with
  | nil =>
    show jGet? [(k, v)] t = _
    rw [jGet?_cons]
    rfl
  | cons a l ih =>
    rcases a with ⟨k1, v1⟩
    rw [List.cons_append, jGet?_cons, jGet?_cons]
    by_cases h : (k1 == t) = true
    · simp [h]
    · simp [h, ih]

theorem dSet_append_absent (l : Dict) (k : String) (v v2 : JVal)
    (h : jGet? l k = none) : dSet (l ++ [(k, v)]) k v2 = l ++ [(k, v2)] := by
  induction l with
  | nil => simp [dSet]
  | cons a l ih =>
    rcases a with ⟨k1, v1⟩
    rw [jGet?_cons] at h
    by_cases h1 : (k1 == k) = true
    · rw [if_pos h1] at h; exact absurd h (by simp)
    · rw [if_neg h1] at h
      rw [List.cons_append]
      have hd : dSet ((k1, v1) :: (l ++ [(k, v)])) k v2 =
          (k1, v1) :: dSet (l ++ [(k, v)]) k v2 := by
        simp [dSet, h1]
      rw [hd, ih h, List.cons_append]

theorem setdefaultD_of_present (d : Dict) (k : String) (v : JVal)
    (h : hasKey d k = true) : setdefaultD d k v = d := by
  simp [setdefaultD, h]

theorem setdefaultD_of_absent (d : Dict) (k : String) (v : JVal)
    (h : hasKey d k = false) : setdefaultD d k v = d ++ [(k, v)] := by
  simp [setdefaultD, h]

theorem intViewD_of_ok (v : JVal) (n : Int) (h : pyIntE v = .ok n) :
    intViewD v = n := by
  simp [intViewD, h, Except.toOption]

theorem counterKey_ne_seen (d : JVal) : (counterKey d == "seen") = false := by
  unfold counterKey
  split
  · rfl
  · split <;> rfl

theorem updateOne_obj (S : Dict) (md : Dict) (now : String) :
    updateOne S (.obj md) now =
      (sender_email md >>= fun sender =>
        if sender == "" then Except.ok S
        else
          msgDecision md >>= fun decision =>
          asObjE "AttributeError: rec.get"
            (dGetN (setdefaultD S sender newSenderRec) sender) >>= fun recD =>
          pyIntE (dGet recD "seen" (.int 0)) >>= fun seen =>
          pyIntE (dGet (dSet recD "seen" (.int (seen + 1)))
            (counterKey decision) (.int 0)) >>= fun cnt =>
          Except.ok (dSet (setdefaultD S sender newSenderRec) sender
            (.obj (dSet (dSet (dSet recD "seen" (.int (seen + 1)))
              (counterKey decision) (.int (cnt + 1))) "last_seen"
              (.str now))))) := rfl

theorem updateOne_skip (S : Dict) (md : Dict) (now : String)
    (hs : sender_email md = .ok "") : updateOne S (.obj md) now = .ok S := by
  rw [updateOne_obj]
  rw [hs, bind_ok_ex]
  rw [if_pos (by simp)]

theorem updateOne_present (S : Dict) (md : Dict) (now : String) (s : String)
    (d : JVal) (r : SenderRecI) (hs : sender_email md = .ok s)
    (hne : s ≠ "") (hd : msgDecision md = .ok d)
    (hrec : jGet? S s = some (encodeRec r)) :
    updateOne S (.obj md) now = .ok (dSet S s (encodeRec (bumpRec r d now))) := by
  have hsd : setdefaultD S s newSenderRec = S :=
    setdefaultD_of_present S s newSenderRec (by simp [hasKey, hrec])
  have hget : dGetN (setdefaultD S s newSenderRec) s = encodeRec r := by
    rw [hsd]
    simp [dGetN, dGet, hrec]
  rw [updateOne_obj]
  rw [hs, bind_ok_ex]
  rw [if_neg (by simp [hne])]
  rw [hd, bind_ok_ex]
  rw [hget]
  rw [show asObjE "AttributeError: rec.get" (encodeRec r) =
    .ok [("seen", JVal.int r.seen), ("flag_count", .int r.flag_count),
      ("surface_count", .int r.surface_count),
      ("ignore_count", .int r.ignore_count),
      ("last_seen", r.last_seen)] from rfl, bind_ok_ex]
  rw [show pyIntE (dGet [("seen", JVal.int r.seen),
      ("flag_count", .int r.flag_count),
      ("surface_count", .int r.surface_count),
      ("ignore_count", .int r.ignore_count),
      ("last_seen", r.last_seen)] "seen" (.int 0)) = .ok r.seen from rfl,
    bind_ok_ex]
  rw [hsd]
  by_cases hf : jEqStr d "flag" = true
  · have hck : counterKey d = "flag_count" := by simp [counterKey, hf]
    rw [hck]
    rw [show pyIntE (dGet (dSet [("seen", JVal.int r.seen),
        ("flag_count", .int r.flag_count),
        ("surface_count", .int r.surface_count),
        ("ignore_count", .int r.ignore_count),
        ("last_seen", r.last_seen)] "seen" (.int (r.seen + 1)))
        "flag_count" (.int 0)) = .ok r.flag_count from rfl, bind_ok_ex]
    have hb : encodeRec (bumpRec r d now) =
        .obj [("seen", JVal.int (r.seen + 1)),
          ("flag_count", .int (r.flag_count + 1)),
          ("surface_count", .int r.surface_count),
          ("ignore_count", .int r.ignore_count),
          ("last_seen", .str now)] := by
      simp [bumpRec, hf, encodeRec]
    rw [hb]
    rfl
  · by_cases hsu : jEqStr d "surface" = true
    · have hck : counterKey d = "surface_count" := by
        simp [counterKey, hf, hsu]
      rw [hck]
      rw [show pyIntE (dGet (dSet [("seen", JVal.int r.seen),
          ("flag_count", .int r.flag_count),
          ("surface_count", .int r.surface_count),
          ("ignore_count", .int r.ignore_count),
          ("last_seen", r.last_seen)] "seen" (.int (r.seen + 1)))
          "surface_count" (.int 0)) = .ok r.surface_count from rfl,
        bind_ok_ex]
      have hb : encodeRec (bumpRec r d now) =
          .obj [("seen", JVal.int (r.seen + 1)),
            ("flag_count", .int r.flag_count),
            ("surface_count", .int (r.surface_count + 1)),
            ("ignore_count", .int r.ignore_count),
            ("last_seen", .str now)] := by
        simp [bumpRec, hf, hsu, encodeRec]
      rw [hb]
      rfl
    · have hck : counterKey d = "ignore_count" := by
        simp [counterKey, hf, hsu]
      rw [hck]
      rw [show pyIntE (dGet (dSet [("seen", JVal.int r.seen),
          ("flag_count", .int r.flag_count),
          ("surface_count", .int r.surface_count),
          ("ignore_count", .int r.ignore_count),
          ("last_seen", r.last_seen)] "seen" (.int (r.seen + 1)))
          "ignore_count" (.int 0)) = .ok r.ignore_count from rfl,
        bind_ok_ex]
      have hb : encodeRec (bumpRec r d now) =
          .obj [("seen", JVal.int (r.seen + 1)),
            ("flag_count", .int r.flag_count),
            ("surface_count", .int r.surface_count),
            ("ignore_count", .int (r.ignore_count + 1)),
            ("last_seen", .str now)] := by
        simp [bumpRec, hf, hsu, encodeRec]
      rw [hb]
      rfl

theorem updateOne_absent (S : Dict) (md : Dict) (now : String) (s : String)
    (d : JVal) (hs : sender_email md = .ok s) (hne : s ≠ "")
    (hd : msgDecision md = .ok d) (hrec : jGet? S s = none) :
    updateOne S (.obj md) now =
      .ok (S ++ [(s, encodeRec (bumpRec ⟨0, 0, 0, 0, .null⟩ d now))]) := by
  have hsd : setdefaultD S s newSenderRec = S ++ [(s, newSenderRec)] :=
    setdefaultD_of_absent S s newSenderRec (by simp [hasKey, hrec])
  have hget : dGetN (setdefaultD S s newSenderRec) s = newSenderRec := by
    rw [hsd]
    simp [dGetN, dGet, jGet?_append_single, hrec]
  rw [updateOne_obj]
  rw [hs, bind_ok_ex]
  rw [if_neg (by simp [hne])]
  rw [hd, bind_ok_ex]
  rw [hget]
  rw [show asObjE "AttributeError: rec.get" newSenderRec =
    .ok [("seen", JVal.int 0), ("flag_count", .int 0),
      ("surface_count", .int 0), ("ignore_count", .int 0),
      ("last_seen", .null)] from rfl, bind_ok_ex]
  rw [show pyIntE (dGet [("seen", JVal.int 0), ("flag_count", .int 0),
      ("surface_count", .int 0), ("ignore_count", .int 0),
      ("last_seen", .null)] "seen" (.int 0)) = .ok 0 from rfl, bind_ok_ex]
  rw [hsd]
  have hout : ∀ v2 : JVal, dSet (S ++ [(s, newSenderRec)]) s v2 =
      S ++ [(s, v2)] := fun v2 => dSet_append_absent S s newSenderRec v2 hrec
  by_cases hf : jEqStr d "flag" = true
  · have hck : counterKey d = "flag_count" := by simp [counterKey, hf]
    rw [hck]
    rw [show pyIntE (dGet (dSet [("seen", JVal.int 0),
        ("flag_count", .int 0), ("surface_count", .int 0),
        ("ignore_count", .int 0), ("last_seen", .null)] "seen"
        (.int (0 + 1))) "flag_count" (.int 0)) = .ok 0 from rfl, bind_ok_ex]
    rw [hout]
    have hb : encodeRec (bumpRec ⟨0, 0, 0, 0, .null⟩ d now) =
        .obj [("seen", JVal.int (0 + 1)), ("flag_count", .int (0 + 1)),
          ("surface_count", .int 0), ("ignore_count", .int 0),
          ("last_seen", .str now)] := by
      simp [bumpRec, hf, encodeRec]
    rw [hb]
    rfl
  · by_cases hsu : jEqStr d "surface" = true
    · have hck : counterKey d = "surface_count" := by
        simp [counterKey, hf, hsu]
      rw [hck]
      rw [show pyIntE (dGet (dSet [("seen", JVal.int 0),
          ("flag_count", .int 0), ("surface_count", .int 0),
          ("ignore_count", .int 0), ("last_seen", .null)] "seen"
          (.int (0 + 1))) "surface_count" (.int 0)) = .ok 0 from rfl,
        bind_ok_ex]
      rw [hout]
      have hb : encodeRec (bumpRec ⟨0, 0, 0, 0, .null⟩ d now) =
          .obj [("seen", JVal.int (0 + 1)), ("flag_count", .int 0),
            ("surface_count", .int (0 + 1)), ("ignore_count", .int 0),
            ("last_seen", .str now)] := by
        simp [bumpRec, hf, hsu, encodeRec]
      rw [hb]
      rfl
    · have hck : counterKey d = "ignore_count" := by
        simp [counterKey, hf, hsu]
      rw [hck]
      rw [show pyIntE (dGet (dSet [("seen", JVal.int 0),
          ("flag_count", .int 0), ("surface_count", .int 0),
          ("ignore_count", .int 0), ("last_seen", .null)] "seen"
          (.int (0 + 1))) "ignore_count" (.int 0)) = .ok 0 from rfl,
        bind_ok_ex]
      rw [hout]
      have hb : encodeRec (bumpRec ⟨0, 0, 0, 0, .null⟩ d now) =
          .obj [("seen", JVal.int (0 + 1)), ("flag_count", .int 0),
            ("surface_count", .int 0), ("ignore_count", .int (0 + 1)),
            ("last_seen", .str now)] := by
        simp [bumpRec, hf, hsu, encodeRec]
      rw [hb]
      rfl

theorem asObjE_ok_inv (err : String) (v : JVal) (l : Dict)
    (h : asObjE err v = .ok l) : v = .obj l := by
  cases v <;> simp_all [asObjE]

theorem rec3_seen (recD : Dict) (d : JVal) (now : String) (seen cnt : Int) :
    dGet (dSet (dSet (dSet recD "seen" (.int (seen + 1))) (counterKey d)
      (.int (cnt + 1))) "last_seen" (.str now)) "seen" (.int 0) =
      .int (seen + 1) := by
  have e1 : (("last_seen" : String) == "seen") = false := by decide
  simp [dGet, jGet?_dSet, e1, counterKey_ne_seen d]

theorem updateOne_mono (S : Dict) (m : JVal) (now : String) (S2 : Dict)
    (h : updateOne S m now = .ok S2) (t : String) :
    seenOfSenders S t ≤ seenOfSenders S2 t ∧
      (hasKey S t = true → hasKey S2 t = true) := by
  cases m with
  | obj md =>
    rw [updateOne_obj] at h
    obtain ⟨s, hs, h⟩ := ok_of_bind h
    by_cases hse : (s == "") = true
    · rw [if_pos hse] at h
      simp only [Except.ok.injEq] at h
      subst h
      exact ⟨le_refl _, fun hk => hk⟩
    · rw [if_neg hse] at h
      obtain ⟨d, hd, h⟩ := ok_of_bind h
      obtain ⟨recD, hrecD, h⟩ := ok_of_bind h
      obtain ⟨seen, hseen, h⟩ := ok_of_bind h
      obtain ⟨cnt, hcnt, h⟩ := ok_of_bind h
      simp only [Except.ok.injEq] at h
      subst h
      by_cases hts : (s == t) = true
      · -- the updated sender itself
        have hst : s = t := beq_iff_eq.mp hts
        subst hst
        have hnew : jGet? (dSet (setdefaultD S s newSenderRec) s
            (.obj (dSet (dSet (dSet recD "seen" (.int (seen + 1)))
              (counterKey d) (.int (cnt + 1))) "last_seen" (.str now)))) s =
            some (.obj (dSet (dSet (dSet recD "seen" (.int (seen + 1)))
              (counterKey d) (.int (cnt + 1))) "last_seen" (.str now))) := by
          rw [jGet?_dSet]
          simp
        constructor
        · have hnewseen : seenOfSenders (dSet (setdefaultD S s newSenderRec)
              s (.obj (dSet (dSet (dSet recD "seen" (.int (seen + 1)))
                (counterKey d) (.int (cnt + 1))) "last_seen" (.str now)))) s =
              seen + 1 := by
            have hred : seenOfSenders (dSet (setdefaultD S s newSenderRec)
                s (.obj (dSet (dSet (dSet recD "seen" (.int (seen + 1)))
                  (counterKey d) (.int (cnt + 1))) "last_seen"
                  (.str now)))) s =
                intViewD (dGet (dSet (dSet (dSet recD "seen"
                  (.int (seen + 1))) (counterKey d) (.int (cnt + 1)))
                  "last_seen" (.str now)) "seen" (.int 0)) := by
              unfold seenOfSenders
              rw [hnew]
            rw [hred, rec3_seen]
            simp [intViewD, pyIntE, Except.toOption]
          rw [hnewseen]
          by_cases hk : hasKey S s = true
          · obtain ⟨x, hx⟩ := Option.isSome_iff_exists.mp hk
            have hxd : x = .obj recD := by
              have hdg : dGetN S s = x := by simp [dGetN, dGet, hx]
              rw [setdefaultD_of_present S s newSenderRec hk, hdg] at hrecD
              exact asObjE_ok_inv _ _ _ hrecD
            subst hxd
            have hold : seenOfSenders S s =
                intViewD (dGet recD "seen" (.int 0)) := by
              unfold seenOfSenders
              rw [hx]
            rw [hold, intViewD_of_ok _ _ hseen]
            omega
          · have hx : jGet? S s = none := by
              cases hj : jGet? S s
              · rfl
              · exact absurd (by simp [hasKey, hj]) hk
            have hold : seenOfSenders S s = 0 := by
              unfold seenOfSenders
              rw [hx]
            rw [hold]
            -- recD is the fresh record, whose seen is 0, so seen = 0
            have hfresh : recD = [("seen", JVal.int 0),
                ("flag_count", .int 0), ("surface_count", .int 0),
                ("ignore_count", .int 0), ("last_seen", .null)] := by
              rw [setdefaultD_of_absent S s newSenderRec
                (by simp [hasKey, hx])] at hrecD
              have hdg : dGetN (S ++ [(s, newSenderRec)]) s =
                  newSenderRec := by
                simp [dGetN, dGet, jGet?_append_single, hx]
              rw [hdg] at hrecD
              have := asObjE_ok_inv _ _ _ hrecD
              simp only [newSenderRec, JVal.obj.injEq] at this
              exact this.symm
            subst hfresh
            simp only [show pyIntE (dGet [("seen", JVal.int 0),
              ("flag_count", .int 0), ("surface_count", .int 0),
              ("ignore_count", .int 0), ("last_seen", .null)] "seen"
              (.int 0)) = .ok 0 from rfl, Except.ok.injEq] at hseen
            omega
        · intro hk
          simp [hasKey, hnew]
      · -- an unrelated key is untouched
        have hun : jGet? (dSet (setdefaultD S s newSenderRec) s
            (.obj (dSet (dSet (dSet recD "seen" (.int (seen + 1)))
              (counterKey d) (.int (cnt + 1))) "last_seen" (.str now)))) t =
            jGet? S t := by
          rw [jGet?_dSet, if_neg (by simp [hts])]
          by_cases hk : hasKey S s = true
          · rw [setdefaultD_of_present S s newSenderRec hk]
          · rw [setdefaultD_of_absent S s newSenderRec
              (by cases hj : hasKey S s; rfl; exact absurd hj hk)]
            rw [jGet?_append_single]
            cases hj : jGet? S t
            · simp [hts]
            · simp
        constructor
        · unfold seenOfSenders
          rw [hun]
        · intro hk
          simp only [hasKey] at hk ⊢
          rw [hun]
          exact hk
  | null => exact absurd h (by simp [updateOne])
  | bool b => exact absurd h (by simp [updateOne])
  | int n => exact absurd h (by simp [updateOne])
  | float q => exact absurd h (by simp [updateOne])
  | str s => exact absurd h (by simp [updateOne])
  | arr l => exact absurd h (by simp [updateOne])

theorem foldlM_updateOne_mono (now : String) (msgs : List JVal) :
    ∀ (S Sfin : Dict),
      msgs.foldlM (fun S m => updateOne S m now) S = .ok Sfin →
      ∀ t, seenOfSenders S t ≤ seenOfSenders Sfin t ∧
        (hasKey S t = true → hasKey Sfin t = true) := by
  induction msgs with
  | nil =>
    intro S Sfin h t
    simp only [List.foldlM_nil] at h
    simp only [pure, Except.pure, Except.ok.injEq] at h
    subst h
    exact ⟨le_refl _, fun hk => hk⟩
  | cons m ms ih =>
    intro S Sfin h t
    rw [List.foldlM_cons] at h
    obtain ⟨S1, h1, h2⟩ := ok_of_bind h
    have m1 := updateOne_mono S m now S1 h1 t
    have m2 := ih S1 Sfin h2 t
    exact ⟨le_trans m1.1 m2.1, fun hk => m2.2 (m1.2 hk)⟩

theorem update_profiles_obj_eq (P : Dict) (msgs : List JVal)
    (now : String) :
    update_sender_profiles (.obj P) msgs now =
      match dGetN (setdefaultD P "senders" (.obj [])) "senders" with
      | .obj S0 => (msgs.foldlM (fun S m => updateOne S m now) S0).map
          (fun Sfin => .obj (dSet (setdefaultD P "senders" (.obj []))
            "senders" (.obj Sfin)))
      | _ => (msgs.foldlM (fun _ m => updateOneBad m) ()).map
          (fun _ => .obj (setdefaultD P "senders" (.obj []))) := rfl

theorem seenOf_obj (P : Dict) (s : String) :
    seenOf (.obj P) s = (match jGet? P "senders" with
      | some (.obj S) => seenOfSenders S s
      | _ => 0) := rfl

theorem hasSender_obj (P : Dict) (s : String) :
    hasSender (.obj P) s = (match jGet? P "senders" with
      | some (.obj S) => hasKey S s
      | _ => false) := rfl

theorem update_profiles_mono (p : JVal) (msgs : List JVal) (now : String)
    (p2 : JVal) (h : update_sender_profiles p msgs now = .ok p2)
    (s : String) :
    seenOf p s ≤ seenOf p2 s ∧
      (hasSender p s = true → hasSender p2 s = true) := by
  cases p with
  | obj P =>
    rw [update_profiles_obj_eq] at h
    split at h
    · rename_i S0 heq
      by_cases hk : hasKey P "senders" = true
      · obtain ⟨x, hx⟩ := Option.isSome_iff_exists.mp hk
        rw [setdefaultD_of_present P "senders" (.obj []) hk] at heq h
        have hxo : x = .obj S0 := by
          have hdg : dGetN P "senders" = x := by simp [dGetN, dGet, hx]
          rw [hdg] at heq
          exact heq
        subst hxo
        cases hf : msgs.foldlM (fun S m => updateOne S m now) S0 with
        | error e => rw [hf] at h; exact absurd h (by simp [Except.map])
        | ok Sfin =>
          rw [hf] at h
          simp only [Except.map, Except.ok.injEq] at h
          subst h
          have hm := foldlM_updateOne_mono now msgs S0 Sfin hf s
          have hnew : jGet? (dSet P "senders" (.obj Sfin)) "senders" =
              some (.obj Sfin) := by
            rw [jGet?_dSet]
            simp
          constructor
          · simp only [seenOf_obj, hx, hnew]
            exact hm.1
          · intro hh
            simp only [hasSender_obj, hx] at hh
            simp only [hasSender_obj, hnew]
            exact hm.2 hh
      · have hx : jGet? P "senders" = none := by
          cases hj : jGet? P "senders"
          · rfl
          · exact absurd (by simp [hasKey, hj]) hk
        rw [setdefaultD_of_absent P "senders" (.obj [])
          (by cases hj : hasKey P "senders"; rfl;
              exact absurd hj hk)] at heq h
        have hS0 : S0 = [] := by
          have hdg : dGetN (P ++ [("senders", .obj [])]) "senders" =
              .obj [] := by
            simp [dGetN, dGet, jGet?_append_single, hx]
          rw [hdg] at heq
          simpa using heq.symm
        subst hS0
        cases hf : msgs.foldlM (fun S m => updateOne S m now) [] with
        | error e => rw [hf] at h; exact absurd h (by simp [Except.map])
        | ok Sfin =>
          rw [hf] at h
          simp only [Except.map, Except.ok.injEq] at h
          subst h
          have hnew : jGet? (dSet (P ++ [("senders", .obj [])]) "senders"
              (.obj Sfin)) "senders" = some (.obj Sfin) := by
            rw [jGet?_dSet]
            simp
          have hm := foldlM_updateOne_mono now msgs [] Sfin hf s
          constructor
          · simp only [seenOf_obj, hx, hnew]
            calc (0 : Int) = seenOfSenders [] s := rfl
              _ ≤ seenOfSenders Sfin s := hm.1
          · intro hc
            simp only [hasSender_obj, hx] at hc
            exact absurd hc (by simp)
    · rename_i x hne
      by_cases hk : hasKey P "senders" = true
      · rw [setdefaultD_of_present P "senders" (.obj []) hk] at h
        cases hf : msgs.foldlM (fun _ m => updateOneBad m) () with
        | error e => rw [hf] at h; exact absurd h (by simp [Except.map])
        | ok u =>
          rw [hf] at h
          simp only [Except.map, Except.ok.injEq] at h
          subst h
          exact ⟨le_refl _, fun hc => hc⟩
      · -- absent key forces the dict branch: contradiction
        have hx : jGet? P "senders" = none := by
          cases hj : jGet? P "senders"
          · rfl
          · exact absurd (by simp [hasKey, hj]) hk
        exfalso
        apply hne []
        rw [setdefaultD_of_absent P "senders" (.obj [])
          (by cases hj : hasKey P "senders"; rfl; exact absurd hj hk)]
        simp [dGetN, dGet, jGet?_append_single, hx]
  | null => exact absurd h (by simp [update_sender_profiles])
  | bool b => exact absurd h (by simp [update_sender_profiles])
  | int n => exact absurd h (by simp [update_sender_profiles])
  | float q => exact absurd h (by simp [update_sender_profiles])
  | str st => exact absurd h (by simp [update_sender_profiles])
  | arr l => exact absurd h (by simp [update_sender_profiles])

/-- C7 amended: over a batch, every sender's `seen` is non-decreasing and no
sender record is deleted; per message, a message whose sender is empty
leaves the senders dict unchanged, and a message with a sender and a
(possibly defaulted) decision updates exactly that sender's record — `seen`
and the one counter selected by the decision (missing decisions count as
`ignore`) increment and `last_seen` is set — inserting a fresh record when
the sender is new. -/
theorem update_sender_profiles_amended :
    (∀ (p : JVal) (msgs : List JVal) (now : String) (p2 : JVal),
      update_sender_profiles p msgs now = .ok p2 →
      ∀ s, seenOf p s ≤ seenOf p2 s ∧
        (hasSender p s = true → hasSender p2 s = true)) ∧
    (∀ (S : Dict) (md : Dict) (now : String) (s : String) (d : JVal),
      sender_email md = .ok s → s ≠ "" → msgDecision md = .ok d →
      (∀ r : SenderRecI, jGet? S s = some (encodeRec r) →
        updateOne S (.obj md) now =
          .ok (dSet S s (encodeRec (bumpRec r d now)))) ∧
      (jGet? S s = none →
        updateOne S (.obj md) now =
          .ok (S ++ [(s, encodeRec (bumpRec ⟨0, 0, 0, 0, .null⟩ d now))]))) ∧
    (∀ (S : Dict) (md : Dict) (now : String),
      sender_email md = .ok "" → updateOne S (.obj md) now = .ok S) := by
  refine ⟨update_profiles_mono, ?_, updateOne_skip⟩
  intro S md now s d hs hne hd
  exact ⟨fun r hrec => updateOne_present S md now s d r hs hne hd hrec,
    fun hrec => updateOne_absent S md now s d hs hne hd hrec⟩

/-- C7 counterexample: updating with a message that has a sender but no
resolved decision does not leave the profile unchanged — the code counts it
as `ignore` (seen and ignore_count increment). -/
theorem update_no_decision_changes :
    ¬ updateLeavesUnchanged emptyProfile [noDecisionMsg]
      "2026-01-01T00:00:00+00:00" := by
  intro h
  unfold updateLeavesUnchanged at h
  rw [show update_sender_profiles emptyProfile [noDecisionMsg]
      "2026-01-01T00:00:00+00:00" = .ok noDecisionUpdated from rfl] at h
  simp only [Except.ok.injEq] at h
  have := congrArg (fun p => ignoreCountOf p "a@b.c") h
  exact absurd this (by decide)

/-- C7 witness: the amended statement at a concrete profile and message —
`seen` grows across the batch, and one step on the senders dict bumps
exactly the flagged sender's record. -/
theorem update_sender_profiles_witness :
    (seenOf oneSenderProfile "a@b.c" ≤ seenOf oneSenderUpdated "a@b.c") ∧
    updateOne [("a@b.c", encodeRec ⟨3, 1, 1, 1, .null⟩)] flaggedMsg
        "2026-01-01T00:00:00+00:00" =
      .ok (dSet [("a@b.c", encodeRec ⟨3, 1, 1, 1, .null⟩)] "a@b.c"
        (encodeRec (bumpRec ⟨3, 1, 1, 1, .null⟩ (.str "flag")
          "2026-01-01T00:00:00+00:00"))) ∧
    updateOne [] (.obj [("subject", .str "x")]) "t" = .ok [] :=
  ⟨(update_sender_profiles_amended.1 oneSenderProfile [flaggedMsg]
      "2026-01-01T00:00:00+00:00" oneSenderUpdated rfl "a@b.c").1,
   (update_sender_profiles_amended.2.1 [("a@b.c", encodeRec ⟨3, 1, 1, 1,
      .null⟩)] flaggedMsgD "2026-01-01T00:00:00+00:00" "a@b.c" (.str "flag")
      rfl (by decide) rfl).1 ⟨3, 1, 1, 1, .null⟩ rfl,
   update_sender_profiles_amended.2.2 [] [("subject", .str "x")] "t" rfl⟩

end EmailReader
